import Mathlib

/-!
# surgepy: the Python-facing control surface of the Surge synthesizer

A shallow embedding of `src/python_bindings/surgepy.cpp`:

* the chunked render protocol `processMultiBlock` (buffer validation, the
  render loop and its two `memcpy` calls per block);
* the one-time construction of the control-group and modulation-source
  catalogs in the constructor, with the lookups `getControlGroup` and
  `getModSource`;
* the parameter accessors `getv`, `getParamVal`, `setParamVal`;
* the strided view returned by `getOutput`.

Machine integers are mathematical integers with the conversions of the C++
source written out: `int` is a 32-bit twos-complement value, `size_t` a
64-bit unsigned one.  Declarations the file includes from the engine headers
(`BLOCK_SIZE`, the enumerator values, `modsource_names`, `idForParameter`)
are parameters of the model.
-/

namespace SurgePy

/-! ## Machine integers -/

/-- Result of bringing an integer into the range of a 32-bit `int`
(twos-complement wrap-around), as narrowing to `int` and `int` arithmetic do. -/
def wrapInt32 (x : Int) : Int := (x + 2147483648) % 4294967296 - 2147483648

/-- Conversion of an integer to `size_t` (64-bit unsigned, modular). -/
def toSizeT (x : Int) : Int := x % 18446744073709551616

/-- The values an `int` can hold. -/
def IsInt32 (x : Int) : Prop := -2147483648 ≤ x ∧ x < 2147483648

instance (x : Int) : Decidable (IsInt32 x) := by
  unfold IsInt32; infer_instance

/-! ## The chunked render protocol -/

/-- The fields of `py::buffer_info` that `processMultiBlock` reads.  `ndim` is
the length of `shape`, as pybind11 guarantees. -/
structure BufferInfo where
  itemsize : Nat
  shape : List Nat
deriving DecidableEq, Repr

/-- Number of dimensions of the buffer: `buf.ndim`. -/
def BufferInfo.ndim (buf : BufferInfo) : Nat := buf.shape.length

/-- The five `throw std::invalid_argument` sites of `processMultiBlock`, in
source order. -/
inductive RenderError where
  | dtypeNotFloat
  | ndimNot2
  | badDimensions
  | startBeyondEnd
  | comboBeyondEnd
deriving DecidableEq, Repr

/-- The error taxonomy of the specification for render failures. -/
inductive RenderErrorKind where
  | InvalidShapeError
  | OutOfRangeError
deriving DecidableEq, Repr

/-- Which error of the taxonomy each throw site signals: the three buffer
checks are shape errors, the two block checks are range errors. -/
def RenderError.kind : RenderError → RenderErrorKind
  | .dtypeNotFloat => .InvalidShapeError
  | .ndimNot2 => .InvalidShapeError
  | .badDimensions => .InvalidShapeError
  | .startBeyondEnd => .OutOfRangeError
  | .comboBeyondEnd => .OutOfRangeError

/-- The part of the engine the render path uses: `process()` advances the
engine state by one block and `output[c][j]` is sample `j` of channel `c` of
the internal output block. -/
structure Synth (σ α : Type) where
  process : σ → σ
  output : σ → Nat → Nat → α

/-- State observed by the render path.  `mem` is the caller's memory,
addressed in samples relative to `buf.ptr`;  `processCalls` counts the calls
of `process()` and `writes` logs the destination offset and length of every
`memcpy`, in order. -/
structure RenderState (σ α : Type) where
  synth : σ
  mem : Int → α
  processCalls : Nat
  writes : List (Int × Nat)

/-- Copy of `n` samples from `src` to the offsets `dst, …, dst + n - 1`. -/
def memcpy {α : Type} (mem : Int → α) (dst : Int) (src : Nat → α) (n : Nat) : Int → α :=
  fun a => if dst ≤ a ∧ a < dst + n then src (a - dst).toNat else mem a

/-- The `for` loop of `processMultiBlock`, run for `n` iterations starting
with the destination pointers `dL` and `dR`. -/
def renderLoop {σ α : Type} (S : Synth σ α) (blockSize : Nat) :
    Nat → Int → Int → RenderState σ α → RenderState σ α
  | 0, _, _, st => st
  | n + 1, dL, dR, st =>
    let s1 := S.process st.synth
    let m1 := memcpy st.mem dL (S.output s1 0) blockSize
    let m2 := memcpy m1 dR (S.output s1 1) blockSize
    renderLoop S blockSize n (dL + blockSize) (dR + blockSize)
      { synth := s1, mem := m2, processCalls := st.processCalls + 1,
        writes := st.writes ++ [(dL, blockSize), (dR, blockSize)] }

/-- The method `processMultiBlock(arr, startBlock, nBlocks)`.  The result is
the error thrown, if any, together with the state the call leaves behind.

`startBlock`, `nBlocks` and `BLOCK_SIZE` are of type `int` (the shape list
`{ 2, BLOCK_SIZE }` of `getOutput` fixes the type of the constant), and
`maxBlockStorage` is a `size_t`.  So the two comparisons convert their left
side to `size_t`, the difference `maxBlockStorage - startBlock` is narrowed to
`int`, and the sum `startBlock + blockIterations` and the product `startBlock *
BLOCK_SIZE` are computed in `int`. -/
def processMultiBlock {σ α : Type} (S : Synth σ α) (blockSize : Nat) (buf : BufferInfo)
    (startBlock nBlocks : Int) (st : RenderState σ α) :
    Except RenderError Unit × RenderState σ α :=
  if buf.itemsize ≠ 4 then (.error .dtypeNotFloat, st)
  else if buf.ndim ≠ 2 then (.error .ndimNot2, st)
  else if buf.shape.getD 0 0 ≠ 2 ∨ buf.shape.getD 1 0 % blockSize ≠ 0 then
    (.error .badDimensions, st)
  else
    let maxBlockStorage : Int := ((buf.shape.getD 1 0 / blockSize : Nat) : Int)
    if toSizeT startBlock ≥ maxBlockStorage then (.error .startBeyondEnd, st)
    else
      let blockIterations : Int :=
        if nBlocks > 0 then nBlocks
        else wrapInt32 (toSizeT (maxBlockStorage - toSizeT startBlock))
      if toSizeT (wrapInt32 (startBlock + blockIterations)) > maxBlockStorage then
        (.error .comboBeyondEnd, st)
      else
        let dL : Int := wrapInt32 (startBlock * blockSize)
        let dR : Int := (buf.shape.getD 1 0 : Int) + wrapInt32 (startBlock * blockSize)
        (.ok (), renderLoop S blockSize blockIterations.toNat dL dR st)

/-- A test engine: the state counts the blocks rendered, and sample `j` of
channel `c` after `n` renders is `1000 * n + 100 * c + j`. -/
def counterSynth : Synth Nat Int where
  process := fun n => n + 1
  output := fun n c j => 1000 * n + 100 * c + j

/-- A fresh render state over the test engine: every sample of memory holds
`-1`, nothing rendered, nothing written. -/
def freshState : RenderState Nat Int where
  synth := 0
  mem := fun _ => -1
  processCalls := 0
  writes := []

/-! ## The view returned by `getOutput` -/

/-- A two-dimensional numpy view: its shape, its strides in bytes and the
element it shows at row `c`, column `j`. -/
structure ArrayView (α : Type) where
  shape : List Nat
  strides : List Nat
  elem : Nat → Nat → α

/-- Sample `k` of the storage of `float output[N_OUTPUTS][BLOCK_SIZE]` read as
one flat row-major array starting at `&output[0][0]`. -/
def outputFlat {α : Type} (out : Nat → Nat → α) (blockSize : Nat) (k : Nat) : α :=
  out (k / blockSize) (k % blockSize)

/-- The method `getOutput()`: an array of shape `{2, BLOCK_SIZE}` with byte
strides `{2 * sizeof(float), sizeof(float)}` over `&output[0][0]`, where
`sizeof(float)` is 4.  Element `[c][j]` is the sample found `c * strides[0] +
j * strides[1]` bytes after the start. -/
def getOutput {σ α : Type} (S : Synth σ α) (blockSize : Nat) (s : σ) : ArrayView α where
  shape := [2, blockSize]
  strides := [2 * 4, 4]
  elem := fun c j => outputFlat (S.output s) blockSize ((c * (2 * 4) + j * 4) / 4)

/-! ## Parameters -/

/-- Values of a C++ `float`: the finite ones as rationals, the two infinities
and not-a-number. -/
inductive FloatVal where
  | finite (q : ℚ)
  | posInf
  | negInf
  | nan
deriving DecidableEq

/-- The comparison `f > c` of a float with a finite constant; false for
not-a-number. -/
def FloatVal.gt (f : FloatVal) (c : ℚ) : Bool :=
  match f with
  | .finite q => decide (c < q)
  | .posInf => true
  | .negInf => false
  | .nan => false

/-- The C library function `round` on a finite value: the nearest integer,
halfway cases away from zero. -/
def cround (q : ℚ) : Int :=
  if 0 ≤ q then ⌊q + 1 / 2⌋ else -⌊-q + 1 / 2⌋

/-- The conversion of `round(f)` to `int`.  The conversion is undefined in C++
when the value is not finite or outside the range of `int`; the model gives
the value x86 hardware produces there. -/
def roundToInt (f : FloatVal) : Int :=
  match f with
  | .finite q => if IsInt32 (cround q) then cround q else -2147483648
  | _ => -2147483648

/-- Number of low bits a natural loses when kept to 24 significant bits. -/
def dropBits : Nat → Nat → Nat
  | 0, _ => 0
  | fuel + 1, a => if a < 16777216 then 0 else dropBits fuel (a / 2) + 1

/-- A natural rounded to 24 significant bits, to nearest, ties to even. -/
def roundNat24 (a : Nat) : Nat :=
  let e := dropBits 64 a
  let q := a / 2 ^ e
  let r := a % 2 ^ e
  (if 2 ^ e < 2 * r ∨ (2 * r = 2 ^ e ∧ q % 2 = 1) then q + 1 else q) * 2 ^ e

/-- The conversion of an `int` to `float`. -/
def intToFloat (i : Int) : FloatVal :=
  .finite (if 0 ≤ i then (roundNat24 i.natAbs : ℚ) else -(roundNat24 i.natAbs : ℚ))

/-- The conversion of a `bool` to `float`. -/
def boolToFloat (b : Bool) : FloatVal := .finite (if b then 1 else 0)

/-- The enumeration `valtypes` of the engine. -/
inductive valtypes where
  | vt_int
  | vt_bool
  | vt_float
deriving DecidableEq, Repr

/-- The union `pdata`, with the member last written as the active one. -/
inductive pdata where
  | i (v : Int)
  | b (v : Bool)
  | f (v : FloatVal)
deriving DecidableEq

/-- Read of member `i`; reading an inactive member is undefined in C++ and
gives 0 here. -/
def pdata.geti : pdata → Int
  | .i v => v
  | _ => 0

/-- Read of member `b`; false when the member is inactive. -/
def pdata.getb : pdata → Bool
  | .b v => v
  | _ => false

/-- Read of member `f`; 0 when the member is inactive. -/
def pdata.getf : pdata → FloatVal
  | .f v => v
  | _ => .finite 0

/-- The handle `SurgeSynthesizer::ID`. -/
structure ID where
  synthid : Int
  dawindex : Int
  dawid : Int
deriving DecidableEq, Repr

/-- The fields of the engine's `Parameter` this file reads or writes;
`full_name` is the result of `get_full_name()`. -/
structure Parameter where
  id : Int
  full_name : String
  ctrlgroup : Int
  ctrlgroup_entry : Int
  scene : Int
  valtype : valtypes
  val : pdata
  val_min : pdata
  val_max : pdata
  val_default : pdata
deriving DecidableEq

/-- The helper object `SurgePyNamedParam`. -/
structure SurgePyNamedParam where
  name : String
  id : ID
deriving DecidableEq, Repr

/-- The function `getv(p, v)`: the member of `v` selected by the type of `p`,
converted to `float`. -/
def getv (p : Parameter) (v : pdata) : FloatVal :=
  match p.valtype with
  | .vt_float => v.getf
  | .vt_int => intToFloat v.geti
  | .vt_bool => boolToFloat v.getb

/-- The element `param_ptr[i]` of the engine's parameter table, `none` for a
null pointer.  An index outside the table is undefined in C++ and reads as a
null pointer here. -/
def paramAt (param_ptr : List (Option Parameter)) (i : Int) : Option Parameter :=
  if i < 0 then none else (param_ptr.getD i.toNat none)

/-- The method `getParamMin`. -/
def getParamMin (param_ptr : List (Option Parameter)) (id : SurgePyNamedParam) : FloatVal :=
  match paramAt param_ptr id.id.synthid with
  | some p => getv p p.val_min
  | none => .finite 0

/-- The method `getParamMax`. -/
def getParamMax (param_ptr : List (Option Parameter)) (id : SurgePyNamedParam) : FloatVal :=
  match paramAt param_ptr id.id.synthid with
  | some p => getv p p.val_max
  | none => .finite 0

/-- The method `getParamDef`. -/
def getParamDef (param_ptr : List (Option Parameter)) (id : SurgePyNamedParam) : FloatVal :=
  match paramAt param_ptr id.id.synthid with
  | some p => getv p p.val_default
  | none => .finite 0

/-- The method `getParamVal`. -/
def getParamVal (param_ptr : List (Option Parameter)) (id : SurgePyNamedParam) : FloatVal :=
  match paramAt param_ptr id.id.synthid with
  | some p => getv p p.val
  | none => .finite 0

/-- The method `getParamValType`. -/
def getParamValType (param_ptr : List (Option Parameter)) (id : SurgePyNamedParam) : String :=
  match paramAt param_ptr id.id.synthid with
  | none => "<error>"
  | some p =>
    match p.valtype with
    | .vt_float => "float"
    | .vt_int => "int"
    | .vt_bool => "bool"

/-- The assignment made by the `switch` of `setParamVal` to the parameter `p`. -/
def storeVal (p : Parameter) (f : FloatVal) : Parameter :=
  match p.valtype with
  | .vt_float => { p with val := .f f }
  | .vt_int => { p with val := .i (roundToInt f) }
  | .vt_bool => { p with val := .b (f.gt (1 / 2)) }

/-- The method `setParamVal`: the parameter table after the call. -/
def setParamVal (param_ptr : List (Option Parameter)) (id : SurgePyNamedParam) (f : FloatVal) :
    List (Option Parameter) :=
  match paramAt param_ptr id.id.synthid with
  | none => param_ptr
  | some p => param_ptr.set id.id.synthid.toNat (some (storeVal p f))

/-! ## The catalogs -/

/-- The enumerators of `ControlGroup` that the constructor registers. -/
inductive CGName where
  | cg_GLOBAL
  | cg_OSC
  | cg_MIX
  | cg_LFO
  | cg_FX
  | cg_FILTER
  | cg_ENV
deriving DecidableEq, Repr

/-- The text `# c` the preprocessor produces for each enumerator. -/
def CGName.str : CGName → String
  | .cg_GLOBAL => "cg_GLOBAL"
  | .cg_OSC => "cg_OSC"
  | .cg_MIX => "cg_MIX"
  | .cg_LFO => "cg_LFO"
  | .cg_FX => "cg_FX"
  | .cg_FILTER => "cg_FILTER"
  | .cg_ENV => "cg_ENV"

/-- The enumerators of `modsources` that the constructor registers. -/
inductive MSName where
  | ms_velocity
  | ms_releasevelocity
  | ms_keytrack
  | ms_lowest_key
  | ms_highest_key
  | ms_latest_key
  | ms_polyaftertouch
  | ms_aftertouch
  | ms_modwheel
  | ms_breath
  | ms_expression
  | ms_sustain
  | ms_pitchbend
  | ms_timbre
  | ms_alternate_bipolar
  | ms_alternate_unipolar
  | ms_random_bipolar
  | ms_random_unipolar
  | ms_filtereg
  | ms_ampeg
  | ms_lfo1
  | ms_lfo2
  | ms_lfo3
  | ms_lfo4
  | ms_lfo5
  | ms_lfo6
  | ms_slfo1
  | ms_slfo2
  | ms_slfo3
  | ms_slfo4
  | ms_slfo5
  | ms_slfo6
  | ms_ctrl1
  | ms_ctrl2
  | ms_ctrl3
  | ms_ctrl4
  | ms_ctrl5
  | ms_ctrl6
  | ms_ctrl7
  | ms_ctrl8
deriving DecidableEq, Repr

/-- The text `# x` the preprocessor produces for each enumerator. -/
def MSName.str : MSName → String
  | .ms_velocity => "ms_velocity"
  | .ms_releasevelocity => "ms_releasevelocity"
  | .ms_keytrack => "ms_keytrack"
  | .ms_lowest_key => "ms_lowest_key"
  | .ms_highest_key => "ms_highest_key"
  | .ms_latest_key => "ms_latest_key"
  | .ms_polyaftertouch => "ms_polyaftertouch"
  | .ms_aftertouch => "ms_aftertouch"
  | .ms_modwheel => "ms_modwheel"
  | .ms_breath => "ms_breath"
  | .ms_expression => "ms_expression"
  | .ms_sustain => "ms_sustain"
  | .ms_pitchbend => "ms_pitchbend"
  | .ms_timbre => "ms_timbre"
  | .ms_alternate_bipolar => "ms_alternate_bipolar"
  | .ms_alternate_unipolar => "ms_alternate_unipolar"
  | .ms_random_bipolar => "ms_random_bipolar"
  | .ms_random_unipolar => "ms_random_unipolar"
  | .ms_filtereg => "ms_filtereg"
  | .ms_ampeg => "ms_ampeg"
  | .ms_lfo1 => "ms_lfo1"
  | .ms_lfo2 => "ms_lfo2"
  | .ms_lfo3 => "ms_lfo3"
  | .ms_lfo4 => "ms_lfo4"
  | .ms_lfo5 => "ms_lfo5"
  | .ms_lfo6 => "ms_lfo6"
  | .ms_slfo1 => "ms_slfo1"
  | .ms_slfo2 => "ms_slfo2"
  | .ms_slfo3 => "ms_slfo3"
  | .ms_slfo4 => "ms_slfo4"
  | .ms_slfo5 => "ms_slfo5"
  | .ms_slfo6 => "ms_slfo6"
  | .ms_ctrl1 => "ms_ctrl1"
  | .ms_ctrl2 => "ms_ctrl2"
  | .ms_ctrl3 => "ms_ctrl3"
  | .ms_ctrl4 => "ms_ctrl4"
  | .ms_ctrl5 => "ms_ctrl5"
  | .ms_ctrl6 => "ms_ctrl6"
  | .ms_ctrl7 => "ms_ctrl7"
  | .ms_ctrl8 => "ms_ctrl8"

/-- The declarations of the engine headers that the catalog code depends on:
the integer values of the enumerators of `ControlGroup` and `modsources`, the
table `modsource_names` and the method `idForParameter`. -/
structure EngineDecls where
  cg : CGName → Int
  endCG : Int
  ms : MSName → Int
  ms_original : Int
  modsource_names : Int → String
  idForParameter : Parameter → ID

/-- The `CGM(...)` lines of the constructor, in source order. -/
def cgmOrder : List CGName :=
  [.cg_GLOBAL, .cg_OSC, .cg_MIX, .cg_LFO, .cg_FX, .cg_FILTER, .cg_ENV]

/-- The `CMS(...)` lines of the constructor, in source order. -/
def cmsOrder : List MSName :=
  [.ms_velocity, .ms_releasevelocity, .ms_keytrack, .ms_lowest_key, .ms_highest_key,
   .ms_latest_key, .ms_polyaftertouch, .ms_aftertouch, .ms_modwheel, .ms_breath,
   .ms_expression, .ms_sustain, .ms_pitchbend, .ms_timbre, .ms_alternate_bipolar,
   .ms_alternate_unipolar, .ms_random_bipolar, .ms_random_unipolar, .ms_filtereg, .ms_ampeg,
   .ms_lfo1, .ms_lfo2, .ms_lfo3, .ms_lfo4, .ms_lfo5, .ms_lfo6, .ms_slfo1, .ms_slfo2, .ms_slfo3,
   .ms_slfo4, .ms_slfo5, .ms_slfo6, .ms_ctrl1, .ms_ctrl2, .ms_ctrl3, .ms_ctrl4, .ms_ctrl5,
   .ms_ctrl6, .ms_ctrl7, .ms_ctrl8]

/-- The control-group `C(...)` lines of the module definition, in source order. -/
def cgConstants : List CGName :=
  [.cg_GLOBAL, .cg_OSC, .cg_MIX, .cg_FILTER, .cg_ENV, .cg_LFO, .cg_FX]

/-- The modulation-source `C(...)` lines of the module definition, in source
order. -/
def msConstants : List MSName :=
  [.ms_velocity, .ms_releasevelocity, .ms_keytrack, .ms_lowest_key, .ms_highest_key,
   .ms_latest_key, .ms_polyaftertouch, .ms_aftertouch, .ms_modwheel, .ms_breath,
   .ms_expression, .ms_sustain, .ms_pitchbend, .ms_timbre, .ms_alternate_bipolar,
   .ms_alternate_unipolar, .ms_random_bipolar, .ms_random_unipolar, .ms_filtereg, .ms_ampeg,
   .ms_lfo1, .ms_lfo2, .ms_lfo3, .ms_lfo4, .ms_lfo5, .ms_lfo6, .ms_slfo1, .ms_slfo2, .ms_slfo3,
   .ms_slfo4, .ms_slfo5, .ms_slfo6, .ms_ctrl1, .ms_ctrl2, .ms_ctrl3, .ms_ctrl4, .ms_ctrl5,
   .ms_ctrl6, .ms_ctrl7, .ms_ctrl8]

/-- The attributes of the submodule `constants`: name and integer value. -/
def constants (E : EngineDecls) : List (String × Int) :=
  cgConstants.map (fun c => (c.str, E.cg c)) ++ msConstants.map (fun m => (m.str, E.ms m))

/-- The helper object `SurgePyControlGroupEntry`. -/
structure SurgePyControlGroupEntry where
  params : List SurgePyNamedParam := []
  entry : Int := -1
  scene : Int := -1
  groupName : String := ""
deriving DecidableEq, Repr

/-- The helper object `SurgePyControlGroup`. -/
structure SurgePyControlGroup where
  entries : List SurgePyControlGroupEntry
  id : Int
  name : String
deriving DecidableEq, Repr

/-- The helper object `SurgePyModSource`. -/
structure SurgePyModSource where
  ms : Int
  name : String
deriving DecidableEq, Repr

/-- The constructor `SurgePyModSource(ms)`: the name comes from the engine's
table `modsource_names`. -/
def SurgePyModSource.ofId (E : EngineDecls) (ms : Int) : SurgePyModSource :=
  { ms := ms, name := E.modsource_names ms }

/-- A map keyed by an enumerator value, as an association list without
repeated keys. -/
abbrev EnumMap (V : Type) := List (Int × V)

/-- The lookup `m.find(k)`: the mapped value, `none` for `m.end()`. -/
def EnumMap.find {V : Type} : EnumMap V → Int → Option V
  | [], _ => none
  | (k1, v1) :: m, k => if k1 = k then some v1 else EnumMap.find m k

/-- The assignment `m[k] = v`. -/
def EnumMap.assign {V : Type} : EnumMap V → Int → V → EnumMap V
  | [], k, v => [(k, v)]
  | (k1, v1) :: m, k, v => if k1 = k then (k, v) :: m else (k1, v1) :: EnumMap.assign m k v

/-- The read `m[k]`: the mapped value and the map afterwards; a missing key is
inserted with the default value `d`. -/
def EnumMap.index {V : Type} (m : EnumMap V) (k : Int) (d : V) : V × EnumMap V :=
  match EnumMap.find m k with
  | some v => (v, m)
  | none => (d, EnumMap.assign m k d)

/-- The order of `std::pair<int,int>`: by first component, then by second. -/
def pairLt (a b : Int × Int) : Prop := a.1 < b.1 ∨ (a.1 = b.1 ∧ a.2 < b.2)

instance : DecidableRel pairLt := fun a b => by
  unfold pairLt; infer_instance

/-- The call `insert` of `std::set<std::pair<int,int>>`, the set being the
list of its elements in iteration order (ascending). -/
def setInsert (x : Int × Int) : List (Int × Int) → List (Int × Int)
  | [] => [x]
  | y :: ys =>
    if pairLt x y then x :: y :: ys
    else if pairLt y x then y :: setInsert x ys
    else y :: ys

/-- The first pass over `param_ptr` for the group `cg`: the set of the pairs
`(ctrlgroup_entry, scene)` of its parameters. -/
def entrySetOf (param_ptr : List (Option Parameter)) (cg : Int) : List (Int × Int) :=
  param_ptr.foldl
    (fun entrySet pa =>
      match pa with
      | some p =>
        if p.ctrlgroup = cg then setInsert (p.ctrlgroup_entry, p.scene) entrySet else entrySet
      | none => entrySet)
    []

/-- The second pass over `param_ptr` for the entry `ent` of group `cg`: the
named parameters pushed onto `entO.params`. -/
def entryParams (E : EngineDecls) (param_ptr : List (Option Parameter)) (cg : Int)
    (ent : Int × Int) : List SurgePyNamedParam :=
  param_ptr.foldl
    (fun params pa =>
      match pa with
      | some p =>
        if p.ctrlgroup = cg ∧ p.ctrlgroup_entry = ent.1 ∧ p.scene = ent.2 then
          params ++ [{ name := p.full_name, id := E.idForParameter p }]
        else params
      | none => params)
    []

/-- The body of the loop over `spysetup_cgMap` for one map element: the
entries pushed onto `me.second.entries`. -/
def populateGroup (E : EngineDecls) (param_ptr : List (Option Parameter))
    (me : Int × SurgePyControlGroup) : Int × SurgePyControlGroup :=
  (me.1,
    (entrySetOf param_ptr me.1).foldl
      (fun g ent =>
        { g with entries := g.entries ++
            [{ params := entryParams E param_ptr me.1 ent, entry := ent.1, scene := ent.2,
               groupName := me.2.name }] })
      me.2)

/-- The two process-wide maps `spysetup_cgMap` and `spysetup_msMap`. -/
structure Globals where
  spysetup_cgMap : EnumMap SurgePyControlGroup
  spysetup_msMap : EnumMap SurgePyModSource
deriving DecidableEq, Repr

/-- The maps at program start. -/
def Globals.initial : Globals := { spysetup_cgMap := [], spysetup_msMap := [] }

/-- The constructor of `SurgeSynthesizerWithPythonExtensions` over an engine
with parameter table `param_ptr`: its effect on the process-wide maps. -/
def construct (E : EngineDecls) (param_ptr : List (Option Parameter)) (g : Globals) : Globals :=
  if g.spysetup_cgMap.isEmpty then
    let cgMap0 := cgmOrder.foldl
      (fun m c => EnumMap.assign m (E.cg c) { entries := [], id := E.cg c, name := c.str })
      g.spysetup_cgMap
    let cgMap1 := cgMap0.map (populateGroup E param_ptr)
    let msMap1 := cmsOrder.foldl
      (fun m c => EnumMap.assign m (E.ms c) (SurgePyModSource.ofId E (E.ms c)))
      g.spysetup_msMap
    { spysetup_cgMap := cgMap1, spysetup_msMap := msMap1 }
  else g

/-- The two `throw std::out_of_range` sites of the lookups. -/
inductive LookupError where
  | invalidControlGroup
  | invalidModSource
deriving DecidableEq, Repr

/-- The method `getControlGroup(cg)`: the group returned or the error thrown,
and the process-wide maps afterwards. -/
def getControlGroup (E : EngineDecls) (g : Globals) (cg : Int) :
    Except LookupError SurgePyControlGroup × Globals :=
  match EnumMap.find g.spysetup_cgMap cg with
  | none => (.error .invalidControlGroup, g)
  | some _ =>
    let r := EnumMap.index g.spysetup_cgMap cg { entries := [], id := E.endCG, name := "" }
    (.ok r.1, { g with spysetup_cgMap := r.2 })

/-- The method `getModSource(ms)`: the source returned or the error thrown,
and the process-wide maps afterwards. -/
def getModSource (E : EngineDecls) (g : Globals) (ms : Int) :
    Except LookupError SurgePyModSource × Globals :=
  match EnumMap.find g.spysetup_msMap ms with
  | none => (.error .invalidModSource, g)
  | some _ =>
    let r := EnumMap.index g.spysetup_msMap ms { ms := E.ms_original, name := "" }
    (.ok r.1, { g with spysetup_msMap := r.2 })

/-- A sample valuation of the engine declarations, for evaluating the model:
control groups numbered 0, 2, …, 7, modulation sources 1, …, 40. -/
def sampleDecls : EngineDecls where
  cg := fun c =>
    match c with
    | .cg_GLOBAL => 0
    | .cg_OSC => 2
    | .cg_MIX => 3
    | .cg_FILTER => 4
    | .cg_ENV => 5
    | .cg_LFO => 6
    | .cg_FX => 7
  endCG := 8
  ms := fun m =>
    match m with
    | .ms_velocity => 1
    | .ms_releasevelocity => 2
    | .ms_keytrack => 3
    | .ms_lowest_key => 4
    | .ms_highest_key => 5
    | .ms_latest_key => 6
    | .ms_polyaftertouch => 7
    | .ms_aftertouch => 8
    | .ms_modwheel => 9
    | .ms_breath => 10
    | .ms_expression => 11
    | .ms_sustain => 12
    | .ms_pitchbend => 13
    | .ms_timbre => 14
    | .ms_alternate_bipolar => 15
    | .ms_alternate_unipolar => 16
    | .ms_random_bipolar => 17
    | .ms_random_unipolar => 18
    | .ms_filtereg => 19
    | .ms_ampeg => 20
    | .ms_lfo1 => 21
    | .ms_lfo2 => 22
    | .ms_lfo3 => 23
    | .ms_lfo4 => 24
    | .ms_lfo5 => 25
    | .ms_lfo6 => 26
    | .ms_slfo1 => 27
    | .ms_slfo2 => 28
    | .ms_slfo3 => 29
    | .ms_slfo4 => 30
    | .ms_slfo5 => 31
    | .ms_slfo6 => 32
    | .ms_ctrl1 => 33
    | .ms_ctrl2 => 34
    | .ms_ctrl3 => 35
    | .ms_ctrl4 => 36
    | .ms_ctrl5 => 37
    | .ms_ctrl6 => 38
    | .ms_ctrl7 => 39
    | .ms_ctrl8 => 40
  ms_original := 0
  modsource_names := fun i => if i = 1 then "Velocity" else "Source"
  idForParameter := fun p => { synthid := p.id, dawindex := -1, dawid := -1 }

/-- A sample parameter with the given place in the hierarchy. -/
def sampleParam (id ctrlgroup entry scene : Int) (name : String) : Parameter where
  id := id
  full_name := name
  ctrlgroup := ctrlgroup
  ctrlgroup_entry := entry
  scene := scene
  valtype := .vt_float
  val := .f (.finite 0)
  val_min := .f (.finite 0)
  val_max := .f (.finite 1)
  val_default := .f (.finite 0)

/-- A sample parameter table: six slots, one of them empty, with two groups
and entries met out of order. -/
def sampleTable : List (Option Parameter) :=
  [some (sampleParam 0 2 1 2 "B Osc 2 Pitch"),
   some (sampleParam 1 0 0 0 "Volume"),
   none,
   some (sampleParam 3 2 0 1 "A Osc 1 Pitch"),
   some (sampleParam 4 2 1 2 "B Osc 2 Shape"),
   some (sampleParam 5 2 0 2 "B Osc 1 Pitch")]

/-- A sample float parameter in slot 0. -/
def floatParam : Parameter := sampleParam 0 2 0 1 "A Osc 1 Pitch"

/-- A sample int parameter in slot 1. -/
def intParam : Parameter :=
  { sampleParam 1 2 0 1 "A Osc 1 Unison Voices" with
    valtype := .vt_int, val := .i 1, val_min := .i 1, val_max := .i 16, val_default := .i 1 }

/-- A sample bool parameter in slot 2. -/
def boolParam : Parameter :=
  { sampleParam 2 2 0 1 "A Osc 1 Retrigger" with
    valtype := .vt_bool, val := .b false, val_min := .b false, val_max := .b true,
    val_default := .b false }

/-- A sample parameter table with one parameter of each value type and an
empty slot. -/
def typedTable : List (Option Parameter) :=
  [some floatParam, some intParam, some boolParam, none]

/-- The handle of slot `i` of a sample table. -/
def sampleId (i : Int) : SurgePyNamedParam :=
  { name := "", id := { synthid := i, dawindex := -1, dawid := -1 } }

/-! ## The render protocol: theorems -/

/-! ### The render loop -/

theorem renderLoop_processCalls {σ α : Type} (S : Synth σ α) (B : Nat) :
    ∀ (n : Nat) (dL dR : Int) (st : RenderState σ α),
      (renderLoop S B n dL dR st).processCalls = st.processCalls + n := by
  intro n
  induction n with
  | zero => intro dL dR st; rfl
  | succ n ih =>
    intro dL dR st
    rw [renderLoop, ih]
    simp only
    omega

theorem renderLoop_synth {σ α : Type} (S : Synth σ α) (B : Nat) :
    ∀ (n : Nat) (dL dR : Int) (st : RenderState σ α),
      (renderLoop S B n dL dR st).synth = S.process^[n] st.synth := by
  intro n
  induction n with
  | zero => intro dL dR st; rfl
  | succ n ih =>
    intro dL dR st
    rw [renderLoop, ih, Function.iterate_succ_apply]

theorem renderLoop_writes {σ α : Type} (S : Synth σ α) (B : Nat) :
    ∀ (n : Nat) (dL dR : Int) (st : RenderState σ α),
      (renderLoop S B n dL dR st).writes =
        st.writes ++ (List.range n).flatMap
          (fun i => [(dL + (i : Int) * B, B), (dR + (i : Int) * B, B)]) := by
  intro n
  induction n with
  | zero => intro dL dR st; simp [renderLoop]
  | succ n ih =>
    intro dL dR st
    rw [renderLoop, ih, List.range_succ_eq_map, List.flatMap_cons, List.flatMap_map]
    simp only [List.append_assoc, Nat.cast_zero, zero_mul, add_zero]
    congr 2
    apply List.flatMap_congr
    intro i _
    have h1 : dL + (B : Int) + (i : Int) * B = dL + ((i : Int) + 1) * B := by ring
    have h2 : dR + (B : Int) + (i : Int) * B = dR + ((i : Int) + 1) * B := by ring
    simp only [Function.comp, Nat.cast_succ, h1, h2]

theorem renderLoop_add {σ α : Type} (S : Synth σ α) (B : Nat) :
    ∀ (a b : Nat) (dL dR : Int) (st : RenderState σ α),
      renderLoop S B (a + b) dL dR st =
        renderLoop S B b (dL + (a : Int) * B) (dR + (a : Int) * B) (renderLoop S B a dL dR st) := by
  intro a
  induction a with
  | zero => intro b dL dR st; simp [renderLoop]
  | succ a ih =>
    intro b dL dR st
    have h : a + 1 + b = (a + b) + 1 := by omega
    rw [h, renderLoop, ih, renderLoop]
    congr 1 <;> · push_cast; ring

/-- Samples outside the two destination ranges keep their value. -/
theorem renderLoop_mem_outside {σ α : Type} (S : Synth σ α) (B : Nat) :
    ∀ (n : Nat) (dL dR : Int) (st : RenderState σ α) (a : Int),
      ¬ (dL ≤ a ∧ a < dL + (n : Int) * B) → ¬ (dR ≤ a ∧ a < dR + (n : Int) * B) →
      (renderLoop S B n dL dR st).mem a = st.mem a := by
  intro n
  induction n with
  | zero => intro dL dR st a _ _; rfl
  | succ n ih =>
    intro dL dR st a hL hR
    have e : ((n + 1 : Nat) : Int) * B = (n : Int) * B + B := by push_cast; ring
    rw [e] at hL hR
    have hn : (0 : Int) ≤ (n : Int) * B := by positivity
    rw [renderLoop, ih _ _ _ a (by omega) (by omega)]
    simp only [memcpy]
    rw [if_neg (by omega), if_neg (by omega)]

/-- Sample `j` of block `i` of each destination range holds sample `j` of the
engine output after the render number `i + 1`, provided the left range ends
before the right one starts. -/
theorem renderLoop_mem_written {σ α : Type} (S : Synth σ α) (B : Nat) :
    ∀ (n : Nat) (dL dR : Int) (st : RenderState σ α) (i j : Nat),
      dL + (n : Int) * B ≤ dR → i < n → j < B →
      (renderLoop S B n dL dR st).mem (dL + (i : Int) * B + j) =
          S.output (S.process^[i + 1] st.synth) 0 j ∧
      (renderLoop S B n dL dR st).mem (dR + (i : Int) * B + j) =
          S.output (S.process^[i + 1] st.synth) 1 j := by
  intro n
  induction n with
  | zero => intro dL dR st i j _ hi _; omega
  | succ n ih =>
    intro dL dR st i j hd hi hj
    have e : ((n + 1 : Nat) : Int) * B = (n : Int) * B + B := by push_cast; ring
    rw [e] at hd
    have hn : (0 : Int) ≤ (n : Int) * B := by positivity
    rw [renderLoop]
    cases i with
    | zero =>
      simp only [Nat.cast_zero, zero_mul, add_zero, zero_add, Function.iterate_one]
      constructor
      · rw [renderLoop_mem_outside S B n _ _ _ _ (by omega) (by omega)]
        simp only [memcpy]
        rw [if_neg (by omega), if_pos (by omega)]
        congr 1
        omega
      · rw [renderLoop_mem_outside S B n _ _ _ _ (by omega) (by omega)]
        simp only [memcpy]
        rw [if_pos (by omega)]
        congr 1
        omega
    | succ i =>
      have e2 : ((i + 1 : Nat) : Int) * B = (i : Int) * B + B := by push_cast; ring
      have hL : dL + ((i + 1 : Nat) : Int) * B + j = (dL + B) + (i : Int) * B + j := by
        rw [e2]; ring
      have hR : dR + ((i + 1 : Nat) : Int) * B + j = (dR + B) + (i : Int) * B + j := by
        rw [e2]; ring
      rw [hL, hR]
      have := ih (dL + B) (dR + B)
        { synth := S.process st.synth,
          mem := memcpy (memcpy st.mem dL (S.output (S.process st.synth) 0) B) dR
            (S.output (S.process st.synth) 1) B,
          processCalls := st.processCalls + 1,
          writes := st.writes ++ [(dL, B), (dR, B)] } i j (by omega) (by omega) hj
      simpa only [Function.iterate_succ_apply] using this

/-! ### Buffers whose width fits an `int` -/

theorem wrapInt32_of_IsInt32 (x : Int) (h : IsInt32 x) : wrapInt32 x = x := by
  unfold wrapInt32
  unfold IsInt32 at h
  omega

/-- The sum of two `int` values, the first non-negative and the second
positive, compared as `size_t` with a bound below 2^31: wrap-around never hides
an excess. -/
theorem toSizeT_wrap_sum_gt (s k M : Int) (hs0 : 0 ≤ s) (hs : s < 2147483648)
    (hk0 : 0 ≤ k) (hk : k < 2147483648) (hM0 : 0 ≤ M) (hM : M < 2147483648) :
    toSizeT (wrapInt32 (s + k)) > M ↔ s + k > M := by
  unfold toSizeT wrapInt32
  omega

/-- The checks and the loop bounds of `processMultiBlock` on a well-shaped
buffer whose width is below 2^31, in plain integer arithmetic. -/
theorem processMultiBlock_of_small_buffer {σ α : Type} (S : Synth σ α) (B d1 : Nat)
    (s n : Int) (st : RenderState σ α) (hB : 0 < B) (hd : d1 < 2147483648)
    (hdiv : d1 % B = 0) (hs : IsInt32 s) (hn : IsInt32 n) :
    processMultiBlock S B ⟨4, [2, d1]⟩ s n st =
      if s < 0 ∨ ((d1 / B : Nat) : Int) ≤ s then (.error .startBeyondEnd, st)
      else if ((d1 / B : Nat) : Int) < s + (if n > 0 then n else ((d1 / B : Nat) : Int) - s) then
        (.error .comboBeyondEnd, st)
      else
        (.ok (), renderLoop S B (if n > 0 then n else ((d1 / B : Nat) : Int) - s).toNat
          (s * B) ((d1 : Int) + s * B) st) := by
  have hMB : (d1 / B) * B = d1 := Nat.div_mul_cancel (Nat.dvd_of_mod_eq_zero hdiv)
  have hMle : d1 / B ≤ d1 := Nat.div_le_self _ _
  obtain ⟨hs1, hs2⟩ := hs
  obtain ⟨hn1, hn2⟩ := hn
  generalize hM : d1 / B = M at hMB hMle
  have hMi : ((M : Nat) : Int) < 2147483648 := by omega
  have hM0 : (0 : Int) ≤ (M : Int) := by positivity
  unfold processMultiBlock
  simp only [BufferInfo.ndim, List.length_cons, List.length_nil, List.getD_cons_zero,
    List.getD_cons_succ, ne_eq, not_true_eq_false, if_false, hdiv, or_self, hM]
  by_cases h1 : s < 0 ∨ (M : Int) ≤ s
  · rw [if_pos h1, if_pos]
    unfold toSizeT
    omega
  · rw [if_neg h1, if_neg (by unfold toSizeT; omega)]
    have hs0 : 0 ≤ s := by omega
    have hsM : s < M := by omega
    have ht1 : toSizeT s = s := by unfold toSizeT; omega
    have ht2 : toSizeT ((M : Int) - s) = (M : Int) - s := by unfold toSizeT; omega
    have hw : wrapInt32 ((M : Int) - s) = (M : Int) - s :=
      wrapInt32_of_IsInt32 _ ⟨by omega, by omega⟩
    have hiter : (if n > 0 then n else wrapInt32 (toSizeT ((M : Int) - toSizeT s))) =
        (if n > 0 then n else (M : Int) - s) := by
      rw [ht1, ht2, hw]
    simp only [hiter]
    have hk0 : 0 ≤ (if n > 0 then n else (M : Int) - s) := by split_ifs <;> omega
    have hk1 : (if n > 0 then n else (M : Int) - s) < 2147483648 := by split_ifs <;> omega
    have hcmp := toSizeT_wrap_sum_gt s _ (M : Int) hs0 hs2 hk0 hk1 hM0 hMi
    have hprod : s * (B : Int) < d1 := by
      have h3 : s * (B : Int) < (M : Int) * B :=
        Int.mul_lt_mul_of_pos_right hsM (by exact_mod_cast hB)
      have h4 : ((M : Int)) * B = d1 := by exact_mod_cast hMB
      omega
    have hprod0 : 0 ≤ s * (B : Int) := by positivity
    have hwp : wrapInt32 (s * (B : Int)) = s * B :=
      wrapInt32_of_IsInt32 _ ⟨by omega, by omega⟩
    rw [hwp]
    by_cases h2 : (M : Int) < s + (if n > 0 then n else (M : Int) - s)
    · rw [if_pos h2, if_pos (hcmp.2 h2)]
    · rw [if_neg h2, if_neg (fun h => h2 (hcmp.1 h))]

/-- On a well-shaped buffer whose width is below 2^31 the call is accepted
exactly when `startBlock` lies in `[0, maxBlocks)` and `startBlock +
iterationCount <= maxBlocks`; otherwise it throws a range error. -/
theorem processMultiBlock_accepts_iff_small {σ α : Type} (S : Synth σ α) (B d1 : Nat)
    (s n : Int) (st : RenderState σ α) (hB : 0 < B) (hd : d1 < 2147483648)
    (hdiv : d1 % B = 0) (hs : IsInt32 s) (hn : IsInt32 n) :
    ((processMultiBlock S B ⟨4, [2, d1]⟩ s n st).1 = .ok () ↔
      0 ≤ s ∧ s < ((d1 / B : Nat) : Int) ∧
        s + (if n > 0 then n else ((d1 / B : Nat) : Int) - s) ≤ ((d1 / B : Nat) : Int)) ∧
    ((s < 0 ∨ ((d1 / B : Nat) : Int) ≤ s) →
      (processMultiBlock S B ⟨4, [2, d1]⟩ s n st).1 = .error .startBeyondEnd) ∧
    (0 ≤ s → s < ((d1 / B : Nat) : Int) →
      ((d1 / B : Nat) : Int) < s + (if n > 0 then n else ((d1 / B : Nat) : Int) - s) →
      (processMultiBlock S B ⟨4, [2, d1]⟩ s n st).1 = .error .comboBeyondEnd) := by
  rw [processMultiBlock_of_small_buffer S B d1 s n st hB hd hdiv hs hn]
  refine ⟨?_, ?_, ?_⟩
  · by_cases h1 : s < 0 ∨ ((d1 / B : Nat) : Int) ≤ s
    · rw [if_pos h1]
      constructor
      · intro h; cases h
      · intro h; omega
    · rw [if_neg h1]
      by_cases h2 : ((d1 / B : Nat) : Int) <
          s + (if n > 0 then n else ((d1 / B : Nat) : Int) - s)
      · rw [if_pos h2]
        constructor
        · intro h; cases h
        · intro h; omega
      · rw [if_neg h2]
        constructor
        · intro _; omega
        · intro _; rfl
  · intro h1
    rw [if_pos h1]
  · intro h0 h1 h2
    rw [if_neg (by omega), if_pos h2]

/-- The state an accepted call leaves on a well-shaped buffer whose width is
below 2^31. -/
theorem processMultiBlock_ok_small {σ α : Type} (S : Synth σ α) (B d1 : Nat)
    (s n : Int) (st : RenderState σ α) (hB : 0 < B) (hd : d1 < 2147483648)
    (hdiv : d1 % B = 0) (hs : IsInt32 s) (hn : IsInt32 n)
    (hok : (processMultiBlock S B ⟨4, [2, d1]⟩ s n st).1 = .ok ()) :
    processMultiBlock S B ⟨4, [2, d1]⟩ s n st =
      (.ok (), renderLoop S B (if n > 0 then n else ((d1 / B : Nat) : Int) - s).toNat
        (s * B) ((d1 : Int) + s * B) st) := by
  have hacc := (processMultiBlock_accepts_iff_small S B d1 s n st hB hd hdiv hs hn).1.1 hok
  rw [processMultiBlock_of_small_buffer S B d1 s n st hB hd hdiv hs hn]
  have h1 : ¬ (s < 0 ∨ ((d1 / B : Nat) : Int) ≤ s) := by omega
  have h2 : ¬ (((d1 / B : Nat) : Int) <
      s + (if n > 0 then n else ((d1 / B : Nat) : Int) - s)) := by omega
  rw [if_neg h1, if_neg h2]

/-- On a well-shaped buffer whose width is below 2^31 an accepted call makes
`iterationCount` renders and two copies per render, the left one inside
`[0, dim1)` and the right one inside `[dim1, 2 * dim1)`. -/
theorem processMultiBlock_writes_in_bounds_small {σ α : Type} (S : Synth σ α) (B d1 : Nat)
    (s n : Int) (st : RenderState σ α) (hB : 0 < B) (hd : d1 < 2147483648)
    (hdiv : d1 % B = 0) (hs : IsInt32 s) (hn : IsInt32 n)
    (hok : (processMultiBlock S B ⟨4, [2, d1]⟩ s n st).1 = .ok ()) :
    (processMultiBlock S B ⟨4, [2, d1]⟩ s n st).2.processCalls =
      st.processCalls + (if n > 0 then n else ((d1 / B : Nat) : Int) - s).toNat ∧
    ∃ ws, (processMultiBlock S B ⟨4, [2, d1]⟩ s n st).2.writes = st.writes ++ ws ∧
      ∀ w ∈ ws, w.2 = B ∧
        ((0 ≤ w.1 ∧ w.1 + (w.2 : Int) ≤ d1) ∨
         ((d1 : Int) ≤ w.1 ∧ w.1 + (w.2 : Int) ≤ 2 * (d1 : Int))) := by
  have hacc := (processMultiBlock_accepts_iff_small S B d1 s n st hB hd hdiv hs hn).1.1 hok
  rw [processMultiBlock_ok_small S B d1 s n st hB hd hdiv hs hn hok]
  simp only
  refine ⟨renderLoop_processCalls S B _ _ _ _, _, renderLoop_writes S B _ _ _ _, ?_⟩
  intro w hw
  rw [List.mem_flatMap] at hw
  obtain ⟨i, hi, hw⟩ := hw
  rw [List.mem_range] at hi
  have hMB : ((d1 / B : Nat) : Int) * B = d1 := by
    exact_mod_cast Nat.div_mul_cancel (Nat.dvd_of_mod_eq_zero hdiv)
  generalize ((d1 / B : Nat) : Int) = M at hacc hMB hi
  generalize hk : (if n > 0 then n else M - s) = k at hacc hi
  have hik : (i : Int) < k := by omega
  have hle : (s + (i : Int) + 1) * B ≤ M * B :=
    Int.mul_le_mul_of_nonneg_right (by omega) (by positivity)
  have h0 : 0 ≤ (s + (i : Int)) * (B : Int) := by
    have : 0 ≤ s + (i : Int) := by omega
    positivity
  have e1 : (s + (i : Int) + 1) * B = s * B + (i : Int) * B + B := by ring
  have e2 : (s + (i : Int)) * (B : Int) = s * B + (i : Int) * B := by ring
  rw [e1] at hle
  rw [e2] at h0
  simp only [List.mem_cons, List.mem_singleton, List.not_mem_nil, or_false] at hw
  rcases hw with rfl | rfl
  · exact ⟨rfl, Or.inl ⟨by simp only; omega, by simp only; omega⟩⟩
  · exact ⟨rfl, Or.inr ⟨by simp only; omega, by simp only; omega⟩⟩

/-- On a well-shaped buffer whose width is below 2^31 an accepted call leaves
sample `j` of channel `c` of render number `i + 1` at offset `c * dim1 +
(startBlock + i) * blockSize + j`, for every `i` below `iterationCount`, and
leaves every sample outside the two ranges of blocks unchanged. -/
theorem processMultiBlock_fills_blocks_small {σ α : Type} (S : Synth σ α) (B d1 : Nat)
    (s n : Int) (st : RenderState σ α) (hB : 0 < B) (hd : d1 < 2147483648)
    (hdiv : d1 % B = 0) (hs : IsInt32 s) (hn : IsInt32 n)
    (hok : (processMultiBlock S B ⟨4, [2, d1]⟩ s n st).1 = .ok ()) :
    (∀ i j : Nat, (i : Int) < (if n > 0 then n else ((d1 / B : Nat) : Int) - s) → j < B →
      (processMultiBlock S B ⟨4, [2, d1]⟩ s n st).2.mem
          (0 * (d1 : Int) + (s + i) * B + j) = S.output (S.process^[i + 1] st.synth) 0 j ∧
      (processMultiBlock S B ⟨4, [2, d1]⟩ s n st).2.mem
          (1 * (d1 : Int) + (s + i) * B + j) = S.output (S.process^[i + 1] st.synth) 1 j) ∧
    (∀ a : Int,
      ¬ (s * B ≤ a ∧
          a < (s + (if n > 0 then n else ((d1 / B : Nat) : Int) - s)) * B) →
      ¬ ((d1 : Int) + s * B ≤ a ∧
          a < (d1 : Int) + (s + (if n > 0 then n else ((d1 / B : Nat) : Int) - s)) * B) →
      (processMultiBlock S B ⟨4, [2, d1]⟩ s n st).2.mem a = st.mem a) ∧
    (processMultiBlock S B ⟨4, [2, d1]⟩ s n st).2.synth =
      S.process^[(if n > 0 then n else ((d1 / B : Nat) : Int) - s).toNat] st.synth := by
  have hacc := (processMultiBlock_accepts_iff_small S B d1 s n st hB hd hdiv hs hn).1.1 hok
  rw [processMultiBlock_ok_small S B d1 s n st hB hd hdiv hs hn hok]
  simp only
  have hMB : ((d1 / B : Nat) : Int) * B = d1 := by
    exact_mod_cast Nat.div_mul_cancel (Nat.dvd_of_mod_eq_zero hdiv)
  generalize ((d1 / B : Nat) : Int) = M at hacc hMB
  generalize hk : (if n > 0 then n else M - s) = k at hacc
  have hk0 : 0 ≤ k := by rw [← hk]; split_ifs <;> omega
  have hkn : ((k.toNat : Nat) : Int) = k := Int.toNat_of_nonneg hk0
  have hle : (s + k) * B ≤ M * B :=
    Int.mul_le_mul_of_nonneg_right (by omega) (by positivity)
  have e1 : (s + k) * (B : Int) = s * B + k * B := by ring
  have hs0 : 0 ≤ s * (B : Int) := by
    have : 0 ≤ s := hacc.1
    positivity
  refine ⟨?_, ?_, renderLoop_synth S B _ _ _ _⟩
  · intro i j hi hj
    have hsep : s * (B : Int) + ((k.toNat : Nat) : Int) * B ≤ (d1 : Int) + s * B := by
      rw [hkn]; omega
    have := renderLoop_mem_written S B k.toNat (s * B) ((d1 : Int) + s * B) st i j hsep
      (by omega) hj
    have eL : 0 * (d1 : Int) + (s + (i : Int)) * B + j = s * B + (i : Int) * B + j := by ring
    have eR : 1 * (d1 : Int) + (s + (i : Int)) * B + j =
        (d1 : Int) + s * B + (i : Int) * B + j := by ring
    rw [eL, eR]
    exact this
  · intro a hL hR
    apply renderLoop_mem_outside
    · rw [hkn]; rw [e1] at hL; exact hL
    · rw [hkn]; rw [e1] at hR
      intro h
      exact hR ⟨h.1, by omega⟩

/-- The example of the specification: block size 64 and a buffer of shape
(2, 192).  The call `(startBlock, nBlocks) = (1, 1)` makes one render and
copies 64 samples to offset 64 and 64 samples to offset 192 + 64; the calls
`(3, -1)` and `(0, 4)` throw range errors. -/
theorem processMultiBlock_three_block_example {σ α : Type} (S : Synth σ α)
    (st : RenderState σ α) :
    processMultiBlock S 64 ⟨4, [2, 192]⟩ 1 1 st = (.ok (), renderLoop S 64 1 64 256 st) ∧
    (processMultiBlock S 64 ⟨4, [2, 192]⟩ 1 1 st).2.writes = st.writes ++ [(64, 64), (256, 64)] ∧
    (processMultiBlock S 64 ⟨4, [2, 192]⟩ 1 1 st).2.processCalls = st.processCalls + 1 ∧
    processMultiBlock S 64 ⟨4, [2, 192]⟩ 3 (-1) st = (.error .startBeyondEnd, st) ∧
    processMultiBlock S 64 ⟨4, [2, 192]⟩ 0 4 st = (.error .comboBeyondEnd, st) :=
  ⟨rfl, rfl, rfl, rfl, rfl⟩

/-! ### The claims on the render protocol -/

/-- C1 (code defect): with a block size of 64, a buffer of shape (2, 2^32) and
the call `processMultiBlock(buf, 33554432, 1)`, both arguments being values of
`int`, no error is thrown and the two copies of the single iteration go to the
offsets -2^31 (64 samples) and 2^31 (64 samples): the left-channel copy lies
below the start of the buffer, because `startBlock * BLOCK_SIZE` is computed in
32-bit `int`. -/
theorem processMultiBlock_write_below_buffer {σ α : Type} (S : Synth σ α) (st : RenderState σ α) :
    IsInt32 33554432 ∧ IsInt32 1 ∧
    (processMultiBlock S 64 ⟨4, [2, 4294967296]⟩ 33554432 1 st).1 = .ok () ∧
    (processMultiBlock S 64 ⟨4, [2, 4294967296]⟩ 33554432 1 st).2.writes
      = st.writes ++ [(-2147483648, 64), (2147483648, 64)] := by
  refine ⟨by decide, by decide, rfl, rfl⟩

/-- C2 (code defect): the same call over the test engine renders one block
(left sample 0 is 1000, right sample 0 is 1100) and leaves the right channel
where the left one belongs: offset `0 * dim1 + startBlock * 64` holds 1100,
offset `1 * dim1 + startBlock * 64` still holds its initial -1, and offset
-2^31, outside the buffer, holds 1000. -/
theorem processMultiBlock_block_misplaced :
    (processMultiBlock counterSynth 64 ⟨4, [2, 4294967296]⟩ 33554432 1 freshState).1 = .ok () ∧
    (processMultiBlock counterSynth 64 ⟨4, [2, 4294967296]⟩ 33554432 1 freshState).2.processCalls = 1 ∧
    counterSynth.output (counterSynth.process freshState.synth) 0 0 = 1000 ∧
    counterSynth.output (counterSynth.process freshState.synth) 1 0 = 1100 ∧
    (processMultiBlock counterSynth 64 ⟨4, [2, 4294967296]⟩ 33554432 1 freshState).2.mem
      (0 * 4294967296 + (33554432 + 0) * 64 + 0) = 1100 ∧
    (processMultiBlock counterSynth 64 ⟨4, [2, 4294967296]⟩ 33554432 1 freshState).2.mem
      (1 * 4294967296 + (33554432 + 0) * 64 + 0) = -1 ∧
    (processMultiBlock counterSynth 64 ⟨4, [2, 4294967296]⟩ 33554432 1 freshState).2.mem
      (-2147483648) = 1000 :=
  ⟨rfl, rfl, rfl, rfl, rfl, rfl, rfl⟩

/-- C3 (code defect): with a block size of 64 and a buffer of shape (2, 2^37),
that is 2^31 blocks, the call with the default arguments `startBlock = 0`,
`nBlocks = -1` is rejected by the second range check although 0 lies in
`[0, maxBlocks)` and `0 + (maxBlocks - 0) <= maxBlocks`: the iteration count
`maxBlocks - startBlock` does not fit the `int` it is stored in. -/
theorem processMultiBlock_default_call_rejected {σ α : Type} (S : Synth σ α)
    (st : RenderState σ α) :
    (0 : Int) < 137438953472 / 64 ∧ (0 : Int) + (137438953472 / 64 - 0) ≤ 137438953472 / 64 ∧
    (processMultiBlock S 64 ⟨4, [2, 137438953472]⟩ 0 (-1) st).1 = .error .comboBeyondEnd := by
  refine ⟨by decide, by decide, rfl⟩

/-- C4: whenever the element size is not 4, or the buffer is not
2-dimensional, or dimension 0 is not 2, or dimension 1 is not a multiple of the
block size, `processMultiBlock` throws at one of the three shape checks (an
`InvalidShapeError`), whatever `startBlock` and `nBlocks` are; no range error
is possible for such a buffer. -/
theorem processMultiBlock_invalid_shape {σ α : Type} (S : Synth σ α) (blockSize : Nat)
    (buf : BufferInfo) (startBlock nBlocks : Int) (st : RenderState σ α)
    (h : buf.itemsize ≠ 4 ∨ buf.ndim ≠ 2 ∨ buf.shape.getD 0 0 ≠ 2 ∨
      buf.shape.getD 1 0 % blockSize ≠ 0) :
    ∃ e, (processMultiBlock S blockSize buf startBlock nBlocks st).1 = .error e ∧
      e.kind = .InvalidShapeError := by
  unfold processMultiBlock
  by_cases h1 : buf.itemsize ≠ 4
  · exact ⟨.dtypeNotFloat, by simp [h1], rfl⟩
  · by_cases h2 : buf.ndim ≠ 2
    · exact ⟨.ndimNot2, by simp [h1, h2], rfl⟩
    · have h3 : buf.shape.getD 0 0 ≠ 2 ∨ buf.shape.getD 1 0 % blockSize ≠ 0 := by tauto
      exact ⟨.badDimensions, by rw [if_neg h1, if_neg h2, if_pos h3], rfl⟩

/-- Witness for C4: a 3-dimensional float buffer with out-of-range block
arguments is rejected as a shape error. -/
theorem processMultiBlock_invalid_shape_witness :
    ((⟨4, [2, 192, 1]⟩ : BufferInfo).itemsize ≠ 4 ∨ (⟨4, [2, 192, 1]⟩ : BufferInfo).ndim ≠ 2 ∨
      (⟨4, [2, 192, 1]⟩ : BufferInfo).shape.getD 0 0 ≠ 2 ∨
      (⟨4, [2, 192, 1]⟩ : BufferInfo).shape.getD 1 0 % 64 ≠ 0) ∧
    ∃ e, (processMultiBlock counterSynth 64 ⟨4, [2, 192, 1]⟩ 3 4 freshState).1 = .error e ∧
      e.kind = .InvalidShapeError :=
  ⟨by decide, processMultiBlock_invalid_shape counterSynth 64 ⟨4, [2, 192, 1]⟩ 3 4 freshState
    (by decide)⟩

/-- C5: whenever `processMultiBlock` throws, the state is the one before the
call: `process()` has not been called, no `memcpy` has been made and every
sample of memory is unchanged. -/
theorem processMultiBlock_error_leaves_state {σ α : Type} (S : Synth σ α) (blockSize : Nat)
    (buf : BufferInfo) (startBlock nBlocks : Int) (st : RenderState σ α) (e : RenderError)
    (h : (processMultiBlock S blockSize buf startBlock nBlocks st).1 = .error e) :
    (processMultiBlock S blockSize buf startBlock nBlocks st).2 = st ∧
    (processMultiBlock S blockSize buf startBlock nBlocks st).2.processCalls = st.processCalls ∧
    (processMultiBlock S blockSize buf startBlock nBlocks st).2.writes = st.writes ∧
    ∀ a, (processMultiBlock S blockSize buf startBlock nBlocks st).2.mem a = st.mem a := by
  have key : (processMultiBlock S blockSize buf startBlock nBlocks st).2 = st := by
    unfold processMultiBlock at h ⊢
    dsimp only at h ⊢
    split_ifs at h ⊢ <;> rfl
  rw [key]
  exact ⟨rfl, rfl, rfl, fun _ => rfl⟩

/-- Witness for C5: the call `processMultiBlock(buf, 0, 4)` on a 3-block
buffer throws and leaves the state untouched. -/
theorem processMultiBlock_error_leaves_state_witness :
    (processMultiBlock counterSynth 64 ⟨4, [2, 192]⟩ 0 4 freshState).1 = .error .comboBeyondEnd ∧
    ((processMultiBlock counterSynth 64 ⟨4, [2, 192]⟩ 0 4 freshState).2 = freshState ∧
    (processMultiBlock counterSynth 64 ⟨4, [2, 192]⟩ 0 4 freshState).2.processCalls
      = freshState.processCalls ∧
    (processMultiBlock counterSynth 64 ⟨4, [2, 192]⟩ 0 4 freshState).2.writes = freshState.writes ∧
    ∀ a, (processMultiBlock counterSynth 64 ⟨4, [2, 192]⟩ 0 4 freshState).2.mem a
      = freshState.mem a) :=
  ⟨rfl, processMultiBlock_error_leaves_state counterSynth 64 ⟨4, [2, 192]⟩ 0 4 freshState
    .comboBeyondEnd rfl⟩

/-! ## The catalogs: theorems -/

/-! ### The pair order and the ordered set -/

theorem pairLt_irrefl (a : Int × Int) : ¬ pairLt a a := by
  unfold pairLt; omega

theorem pairLt_trans {a b c : Int × Int} (h1 : pairLt a b) (h2 : pairLt b c) : pairLt a c := by
  unfold pairLt at *; omega

theorem pairLt_total {a b : Int × Int} (h1 : ¬ pairLt a b) (h2 : ¬ pairLt b a) : a = b := by
  unfold pairLt at *
  apply Prod.ext <;> omega

theorem mem_setInsert (x p : Int × Int) (s : List (Int × Int)) :
    p ∈ setInsert x s ↔ p = x ∨ p ∈ s := by
  induction s with
  | nil => simp [setInsert]
  | cons y ys ih =>
    unfold setInsert
    by_cases h1 : pairLt x y
    · simp [h1]
    · by_cases h2 : pairLt y x
      · simp only [h1, h2, if_false, if_true, List.mem_cons, ih]
        tauto
      · have hxy : x = y := pairLt_total h1 h2
        rw [if_neg h1, if_neg h2, List.mem_cons, hxy]
        tauto

theorem pairwise_setInsert (x : Int × Int) (s : List (Int × Int))
    (hs : s.Pairwise pairLt) : (setInsert x s).Pairwise pairLt := by
  induction s with
  | nil => simp [setInsert]
  | cons y ys ih =>
    have hy := List.pairwise_cons.1 hs
    unfold setInsert
    by_cases h1 : pairLt x y
    · simp only [h1, if_true]
      refine List.pairwise_cons.2 ⟨?_, hs⟩
      intro z hz
      rcases List.mem_cons.1 hz with rfl | hz
      · exact h1
      · exact pairLt_trans h1 (hy.1 z hz)
    · by_cases h2 : pairLt y x
      · simp only [h1, h2, if_false, if_true]
        refine List.pairwise_cons.2 ⟨?_, ih hy.2⟩
        intro z hz
        rcases (mem_setInsert x z ys).1 hz with rfl | hz
        · exact h2
        · exact hy.1 z hz
      · simp only [h1, h2, if_false]
        exact hs

theorem nodup_of_pairwise_pairLt {s : List (Int × Int)} (hs : s.Pairwise pairLt) : s.Nodup :=
by
  refine List.Pairwise.imp ?_ hs
  intro a b h hab
  subst hab
  exact pairLt_irrefl a h

/-- The step of the first pass. -/
theorem entrySetOf_foldl (cg : Int) (l : List (Option Parameter)) :
    ∀ acc : List (Int × Int), acc.Pairwise pairLt →
      (l.foldl (fun entrySet pa =>
          match pa with
          | some p =>
            if p.ctrlgroup = cg then setInsert (p.ctrlgroup_entry, p.scene) entrySet
            else entrySet
          | none => entrySet) acc).Pairwise pairLt ∧
      ∀ x, x ∈ (l.foldl (fun entrySet pa =>
          match pa with
          | some p =>
            if p.ctrlgroup = cg then setInsert (p.ctrlgroup_entry, p.scene) entrySet
            else entrySet
          | none => entrySet) acc) ↔
        x ∈ acc ∨ ∃ q, some q ∈ l ∧ q.ctrlgroup = cg ∧ (q.ctrlgroup_entry, q.scene) = x := by
  induction l with
  | nil => intro acc h; simp [h]
  | cons pa l ih =>
    intro acc h
    rw [List.foldl_cons]
    cases pa with
    | none =>
      obtain ⟨h1, h2⟩ := ih acc h
      refine ⟨h1, fun x => ?_⟩
      rw [h2 x]
      simp
    | some p =>
      by_cases hp : p.ctrlgroup = cg
      · simp only [hp, if_true]
        have := ih (setInsert (p.ctrlgroup_entry, p.scene) acc) (pairwise_setInsert _ _ h)
        simp only [hp, if_true] at this
        obtain ⟨h1, h2⟩ := this
        refine ⟨h1, fun x => ?_⟩
        rw [h2 x, mem_setInsert]
        constructor
        · rintro ((rfl | hx) | ⟨q, hq, hq2, hq3⟩)
          · exact Or.inr ⟨p, by simp, hp, rfl⟩
          · exact Or.inl hx
          · exact Or.inr ⟨q, by simp [hq], hq2, hq3⟩
        · rintro (hx | ⟨q, hq, hq2, hq3⟩)
          · exact Or.inl (Or.inr hx)
          · rcases List.mem_cons.1 hq with hq | hq
            · cases hq
              exact Or.inl (Or.inl hq3.symm)
            · exact Or.inr ⟨q, hq, hq2, hq3⟩
      · simp only [hp, if_false]
        obtain ⟨h1, h2⟩ := ih acc h
        refine ⟨h1, fun x => ?_⟩
        rw [h2 x]
        constructor
        · rintro (hx | ⟨q, hq, hq2, hq3⟩)
          · exact Or.inl hx
          · exact Or.inr ⟨q, by simp [hq], hq2, hq3⟩
        · rintro (hx | ⟨q, hq, hq2, hq3⟩)
          · exact Or.inl hx
          · rcases List.mem_cons.1 hq with hq | hq
            · cases hq
              exact absurd hq2 hp
            · exact Or.inr ⟨q, hq, hq2, hq3⟩

theorem entrySetOf_pairwise (t : List (Option Parameter)) (cg : Int) :
    (entrySetOf t cg).Pairwise pairLt :=
  (entrySetOf_foldl cg t [] List.Pairwise.nil).1

theorem mem_entrySetOf (t : List (Option Parameter)) (cg : Int) (x : Int × Int) :
    x ∈ entrySetOf t cg ↔
      ∃ q, some q ∈ t ∧ q.ctrlgroup = cg ∧ (q.ctrlgroup_entry, q.scene) = x := by
  have := (entrySetOf_foldl cg t [] List.Pairwise.nil).2 x
  simpa [entrySetOf] using this

/-! ### The second pass -/

theorem entryParams_foldl (E : EngineDecls) (cg : Int) (ent : Int × Int)
    (l : List (Option Parameter)) :
    ∀ acc : List SurgePyNamedParam,
      l.foldl (fun params pa =>
          match pa with
          | some p =>
            if p.ctrlgroup = cg ∧ p.ctrlgroup_entry = ent.1 ∧ p.scene = ent.2 then
              params ++ [{ name := p.full_name, id := E.idForParameter p }]
            else params
          | none => params) acc =
        acc ++ (l.reduceOption.filter (fun p =>
            decide (p.ctrlgroup = cg ∧ p.ctrlgroup_entry = ent.1 ∧ p.scene = ent.2))).map
          (fun p => ({ name := p.full_name, id := E.idForParameter p } : SurgePyNamedParam)) := by
  induction l with
  | nil => intro acc; simp
  | cons pa l ih =>
    intro acc
    rw [List.foldl_cons]
    cases pa with
    | none => rw [ih]; simp [List.reduceOption_cons_of_none]
    | some p =>
      rw [ih, List.reduceOption_cons_of_some]
      by_cases hp : p.ctrlgroup = cg ∧ p.ctrlgroup_entry = ent.1 ∧ p.scene = ent.2
      · simp [hp, List.filter_cons]
      · simp [hp, List.filter_cons]

theorem entryParams_eq (E : EngineDecls) (t : List (Option Parameter)) (cg : Int)
    (ent : Int × Int) :
    entryParams E t cg ent =
      (t.reduceOption.filter (fun p =>
          decide (p.ctrlgroup = cg ∧ p.ctrlgroup_entry = ent.1 ∧ p.scene = ent.2))).map
        (fun p => ({ name := p.full_name, id := E.idForParameter p } : SurgePyNamedParam)) := by
  unfold entryParams
  rw [entryParams_foldl]
  simp

theorem populate_foldl (E : EngineDecls) (t : List (Option Parameter)) (k : Int) (nm : String)
    (ents : List (Int × Int)) :
    ∀ g : SurgePyControlGroup,
      ents.foldl (fun g ent =>
          { g with entries := g.entries ++
              [{ params := entryParams E t k ent, entry := ent.1, scene := ent.2,
                 groupName := nm }] }) g =
        { entries := g.entries ++ ents.map (fun ent =>
            ({ params := entryParams E t k ent, entry := ent.1, scene := ent.2,
               groupName := nm } : SurgePyControlGroupEntry)),
          id := g.id, name := g.name } := by
  induction ents with
  | nil => intro g; simp
  | cons e ents ih => intro g; rw [List.foldl_cons, ih]; simp

theorem populateGroup_eq (E : EngineDecls) (t : List (Option Parameter))
    (me : Int × SurgePyControlGroup) :
    populateGroup E t me =
      (me.1,
        { entries := me.2.entries ++ (entrySetOf t me.1).map (fun ent =>
            ({ params := entryParams E t me.1 ent, entry := ent.1, scene := ent.2,
               groupName := me.2.name } : SurgePyControlGroupEntry)),
          id := me.2.id, name := me.2.name }) := by
  unfold populateGroup
  rw [populate_foldl]

/-! ### The maps -/

theorem find_assign {V : Type} (m : EnumMap V) (k : Int) (v : V) (k1 : Int) :
    EnumMap.find (EnumMap.assign m k v) k1 = if k = k1 then some v else EnumMap.find m k1 := by
  induction m with
  | nil => simp [EnumMap.assign, EnumMap.find]
  | cons kv m ih =>
    obtain ⟨k2, v2⟩ := kv
    unfold EnumMap.assign
    by_cases h : k2 = k
    · subst h
      by_cases h2 : k2 = k1 <;> simp [EnumMap.find, h2]
    · simp only [h, if_false]
      unfold EnumMap.find
      by_cases h2 : k2 = k1
      · have : ¬ k = k1 := fun h3 => h (h2.trans h3.symm)
        simp [h2, this]
      · simp only [h2, if_false]
        exact ih

theorem find_foldl_assign {C V : Type} (key : C → Int) (val : C → V) (k : Int) (cs : List C) :
    ∀ m : EnumMap V,
      (EnumMap.find (cs.foldl (fun m c => EnumMap.assign m (key c) (val c)) m) k = EnumMap.find m k ∧
        ∀ c ∈ cs, key c ≠ k) ∨
      ∃ c ∈ cs, key c = k ∧
        EnumMap.find (cs.foldl (fun m c => EnumMap.assign m (key c) (val c)) m) k = some (val c) := by
  induction cs with
  | nil => intro m; left; simp
  | cons c cs ih =>
    intro m
    rw [List.foldl_cons]
    rcases ih (EnumMap.assign m (key c) (val c)) with ⟨h1, h2⟩ | ⟨c1, hc1, hk, hf⟩
    · by_cases hc : key c = k
      · right
        refine ⟨c, by simp, hc, ?_⟩
        rw [h1, find_assign, if_pos hc]
      · left
        refine ⟨?_, ?_⟩
        · rw [h1, find_assign, if_neg hc]
        · intro c2 hc2
          rcases List.mem_cons.1 hc2 with rfl | hc2
          · exact hc
          · exact h2 c2 hc2
    · right
      exact ⟨c1, by simp [hc1], hk, hf⟩

theorem find_map_populate (E : EngineDecls) (t : List (Option Parameter)) (k : Int)
    (m : EnumMap SurgePyControlGroup) :
    EnumMap.find (m.map (populateGroup E t)) k =
      (EnumMap.find m k).map (fun v => (populateGroup E t (k, v)).2) := by
  induction m with
  | nil => simp [EnumMap.find]
  | cons kv m ih =>
    obtain ⟨k2, v2⟩ := kv
    rw [List.map_cons]
    have hk : (populateGroup E t (k2, v2)).1 = k2 := rfl
    have hsplit : populateGroup E t (k2, v2) = (k2, (populateGroup E t (k2, v2)).2) := rfl
    rw [hsplit]
    unfold EnumMap.find
    by_cases h : k2 = k
    · subst h; simp
    · simp only [h, if_false]
      exact ih

theorem index_of_find {V : Type} (m : EnumMap V) (k : Int) (d v : V)
    (h : EnumMap.find m k = some v) : EnumMap.index m k d = (v, m) := by
  unfold EnumMap.index
  rw [h]

/-! ### The maps after the first construction -/

theorem mem_cgmOrder (c : CGName) : c ∈ cgmOrder := by
  cases c <;> simp [cgmOrder]

theorem mem_cmsOrder (m : MSName) : m ∈ cmsOrder := by
  cases m <;> simp [cmsOrder]

theorem construct_initial_cgMap (E : EngineDecls) (t : List (Option Parameter)) :
    (construct E t Globals.initial).spysetup_cgMap =
      (cgmOrder.foldl
        (fun m c => EnumMap.assign m (E.cg c) { entries := [], id := E.cg c, name := c.str })
        []).map (populateGroup E t) := by
  simp only [construct, Globals.initial, List.isEmpty_nil, if_true]

theorem construct_initial_msMap (E : EngineDecls) (t : List (Option Parameter)) :
    (construct E t Globals.initial).spysetup_msMap =
      cmsOrder.foldl
        (fun m c => EnumMap.assign m (E.ms c) (SurgePyModSource.ofId E (E.ms c))) [] := by
  simp only [construct, Globals.initial, List.isEmpty_nil, if_true]

theorem find_cgMap_none (E : EngineDecls) (t : List (Option Parameter)) (k : Int)
    (h : ∀ c, E.cg c ≠ k) :
    EnumMap.find (construct E t Globals.initial).spysetup_cgMap k = none := by
  rw [construct_initial_cgMap, find_map_populate]
  rcases find_foldl_assign E.cg
      (fun c => ({ entries := [], id := E.cg c, name := c.str } : SurgePyControlGroup)) k
      cgmOrder [] with ⟨h1, _⟩ | ⟨c, _, hc, _⟩
  · rw [h1]; rfl
  · exact absurd hc (h c)

theorem find_cgMap_some (E : EngineDecls) (t : List (Option Parameter)) (k : Int)
    (h : ∃ c, E.cg c = k) :
    ∃ c, E.cg c = k ∧
      EnumMap.find (construct E t Globals.initial).spysetup_cgMap k =
        some { entries := (entrySetOf t k).map (fun ent =>
                ({ params := entryParams E t k ent, entry := ent.1, scene := ent.2,
                   groupName := c.str } : SurgePyControlGroupEntry)),
               id := k, name := c.str } := by
  obtain ⟨c0, hc0⟩ := h
  rw [construct_initial_cgMap, find_map_populate]
  rcases find_foldl_assign E.cg
      (fun c => ({ entries := [], id := E.cg c, name := c.str } : SurgePyControlGroup)) k
      cgmOrder [] with ⟨_, h2⟩ | ⟨c, _, hc, hf⟩
  · exact absurd hc0 (h2 c0 (mem_cgmOrder c0))
  · refine ⟨c, hc, ?_⟩
    rw [hf, Option.map_some', populateGroup_eq]
    simp [hc]

theorem find_msMap_none (E : EngineDecls) (t : List (Option Parameter)) (k : Int)
    (h : ∀ m, E.ms m ≠ k) :
    EnumMap.find (construct E t Globals.initial).spysetup_msMap k = none := by
  rw [construct_initial_msMap]
  rcases find_foldl_assign E.ms (fun c => SurgePyModSource.ofId E (E.ms c)) k
      cmsOrder [] with ⟨h1, _⟩ | ⟨c, _, hc, _⟩
  · rw [h1]; rfl
  · exact absurd hc (h c)

theorem find_msMap_some (E : EngineDecls) (t : List (Option Parameter)) (k : Int)
    (h : ∃ m, E.ms m = k) :
    EnumMap.find (construct E t Globals.initial).spysetup_msMap k =
      some (SurgePyModSource.ofId E k) := by
  obtain ⟨c0, hc0⟩ := h
  rw [construct_initial_msMap]
  rcases find_foldl_assign E.ms (fun c => SurgePyModSource.ofId E (E.ms c)) k
      cmsOrder [] with ⟨_, h2⟩ | ⟨c, _, hc, hf⟩
  · exact absurd hc0 (h2 c0 (mem_cmsOrder c0))
  · rw [hf, hc]

theorem getControlGroup_of_find (E : EngineDecls) (g : Globals) (k : Int)
    (v : SurgePyControlGroup) (h : EnumMap.find g.spysetup_cgMap k = some v) :
    getControlGroup E g k = (.ok v, g) := by
  unfold getControlGroup
  rw [h]
  simp only [index_of_find _ _ _ _ h]

theorem getControlGroup_of_find_none (E : EngineDecls) (g : Globals) (k : Int)
    (h : EnumMap.find g.spysetup_cgMap k = none) :
    getControlGroup E g k = (.error .invalidControlGroup, g) := by
  unfold getControlGroup
  rw [h]

theorem getModSource_of_find (E : EngineDecls) (g : Globals) (k : Int)
    (v : SurgePyModSource) (h : EnumMap.find g.spysetup_msMap k = some v) :
    getModSource E g k = (.ok v, g) := by
  unfold getModSource
  rw [h]
  simp only [index_of_find _ _ _ _ h]

theorem getModSource_of_find_none (E : EngineDecls) (g : Globals) (k : Int)
    (h : EnumMap.find g.spysetup_msMap k = none) :
    getModSource E g k = (.error .invalidModSource, g) := by
  unfold getModSource
  rw [h]

/-- The group a lookup returns after the first construction. -/
theorem getControlGroup_construct (E : EngineDecls) (t : List (Option Parameter)) (c : CGName) :
    ∃ nm : String,
      getControlGroup E (construct E t Globals.initial) (E.cg c) =
        (.ok { entries := (entrySetOf t (E.cg c)).map (fun ent =>
                ({ params := entryParams E t (E.cg c) ent, entry := ent.1, scene := ent.2,
                   groupName := nm } : SurgePyControlGroupEntry)),
               id := E.cg c, name := nm },
          construct E t Globals.initial) := by
  obtain ⟨c1, _, hf⟩ := find_cgMap_some E t (E.cg c) ⟨c, rfl⟩
  exact ⟨c1.str, getControlGroup_of_find E _ _ _ hf⟩

/-! ### Partition of a list by the keys of its elements -/

theorem flatMap_filter_perm {β K : Type} [DecidableEq K] (κ : β → K) :
    ∀ (ks : List K) (l : List β), ks.Nodup → (∀ x ∈ l, κ x ∈ ks) →
      List.Perm (ks.flatMap (fun k => l.filter (fun x => decide (κ x = k)))) l := by
  intro ks
  induction ks with
  | nil =>
    intro l _ hl
    have : l = [] := by
      cases l with
      | nil => rfl
      | cons x xs => exact absurd (hl x (by simp)) (by simp)
    subst this
    simp
  | cons k ks ih =>
    intro l hnd hl
    have hk := List.nodup_cons.1 hnd
    rw [List.flatMap_cons]
    have hrest : ks.flatMap (fun k1 => l.filter (fun x => decide (κ x = k1))) =
        ks.flatMap (fun k1 => (l.filter (fun x => !decide (κ x = k))).filter
          (fun x => decide (κ x = k1))) := by
      apply List.flatMap_congr
      intro k1 hk1
      rw [List.filter_filter]
      apply List.filter_congr
      intro x _
      have hne : k1 ≠ k := fun h => hk.1 (h ▸ hk1)
      by_cases hx : κ x = k1
      · have : ¬ κ x = k := fun h => hne (hx.symm.trans h)
        subst hx
        simp [this]
      · simp [hx]
    rw [hrest]
    have hl2 : ∀ x ∈ l.filter (fun x => !decide (κ x = k)), κ x ∈ ks := by
      intro x hx
      rw [List.mem_filter] at hx
      have h1 := hl x hx.1
      have h2 : ¬ κ x = k := by simpa using hx.2
      rcases List.mem_cons.1 h1 with h | h
      · exact absurd h h2
      · exact h
    exact (List.Perm.append_left _ (ih _ hk.2 hl2)).trans (List.filter_append_perm _ l)

/-! ### The catalog theorems -/

/-- C6: after the first construction over a parameter table, the entries that
`getControlGroup` returns for each registered control group carry `(entry,
scene)` pairs in strictly ascending lexicographic order, without duplicates,
and these pairs are exactly the `(ctrlgroup_entry, scene)` pairs of the
non-null parameters of the table that belong to the group. -/
theorem getControlGroup_entries_strictly_ascending (E : EngineDecls)
    (t : List (Option Parameter)) (c : CGName) :
    ∃ grp, (getControlGroup E (construct E t Globals.initial) (E.cg c)).1 = .ok grp ∧
      (grp.entries.map (fun e => (e.entry, e.scene))).Pairwise pairLt ∧
      (grp.entries.map (fun e => (e.entry, e.scene))).Nodup ∧
      ∀ x : Int × Int, x ∈ grp.entries.map (fun e => (e.entry, e.scene)) ↔
        ∃ q, some q ∈ t ∧ q.ctrlgroup = E.cg c ∧ (q.ctrlgroup_entry, q.scene) = x := by
  obtain ⟨nm, h⟩ := getControlGroup_construct E t c
  refine ⟨_, by rw [h], ?_⟩
  have hmap : List.map (fun e : SurgePyControlGroupEntry => (e.entry, e.scene))
      ((entrySetOf t (E.cg c)).map (fun ent =>
        ({ params := entryParams E t (E.cg c) ent, entry := ent.1, scene := ent.2,
           groupName := nm } : SurgePyControlGroupEntry))) = entrySetOf t (E.cg c) := by
    rw [List.map_map]
    conv_rhs => rw [← List.map_id (entrySetOf t (E.cg c))]
    rfl
  simp only [hmap]
  exact ⟨entrySetOf_pairwise t _, nodup_of_pairwise_pairLt (entrySetOf_pairwise t _),
    mem_entrySetOf t _⟩

/-- C7: after the first construction, every entry `(e, s)` that
`getControlGroup` returns for a registered group `g` lists, in table order, the
non-null parameters of the table whose `(ctrlgroup, ctrlgroup_entry, scene)` is
`(g, e, s)`, each as its full name and its id; no entry is empty; and the
parameter lists of all entries together are a rearrangement of the non-null
parameters of group `g`, so each occurs in one entry, once. -/
theorem getControlGroup_entry_params_in_table_order (E : EngineDecls)
    (t : List (Option Parameter)) (c : CGName) :
    ∃ grp, (getControlGroup E (construct E t Globals.initial) (E.cg c)).1 = .ok grp ∧
      (∀ e ∈ grp.entries,
        e.params = (t.reduceOption.filter (fun p =>
            decide (p.ctrlgroup = E.cg c ∧ p.ctrlgroup_entry = e.entry ∧ p.scene = e.scene))).map
          (fun p => ({ name := p.full_name, id := E.idForParameter p } : SurgePyNamedParam)) ∧
        e.params ≠ []) ∧
      List.Perm (grp.entries.flatMap (fun e => e.params))
        ((t.reduceOption.filter (fun p => decide (p.ctrlgroup = E.cg c))).map
          (fun p => ({ name := p.full_name, id := E.idForParameter p } : SurgePyNamedParam))) := by
  obtain ⟨nm, h⟩ := getControlGroup_construct E t c
  refine ⟨_, by rw [h], ?_, ?_⟩
  · intro e he
    simp only [List.mem_map] at he
    obtain ⟨ent, hent, rfl⟩ := he
    refine ⟨entryParams_eq E t _ ent, ?_⟩
    simp only
    rw [entryParams_eq]
    obtain ⟨q, hq, hq2, hq3⟩ := (mem_entrySetOf t _ ent).1 hent
    intro hnil
    have hmem : q ∈ t.reduceOption.filter (fun p =>
        decide (p.ctrlgroup = E.cg c ∧ p.ctrlgroup_entry = ent.1 ∧ p.scene = ent.2)) := by
      rw [List.mem_filter]
      refine ⟨List.reduceOption_mem_iff.2 hq, ?_⟩
      have h1 : q.ctrlgroup_entry = ent.1 := by rw [← hq3]
      have h2 : q.scene = ent.2 := by rw [← hq3]
      simp [hq2, h1, h2]
    rw [List.map_eq_nil_iff] at hnil
    rw [hnil] at hmem
    exact absurd hmem (by simp)
  · simp only [List.flatMap_map]
    have hfun : (fun ent : Int × Int => entryParams E t (E.cg c) ent) =
        fun ent => ((t.reduceOption.filter (fun p => decide (p.ctrlgroup = E.cg c))).filter
            (fun p => decide ((p.ctrlgroup_entry, p.scene) = ent))).map
          (fun p => ({ name := p.full_name, id := E.idForParameter p } : SurgePyNamedParam)) := by
      funext ent
      rw [entryParams_eq, List.filter_filter]
      congr 1
      apply List.filter_congr
      intro p _
      by_cases h1 : p.ctrlgroup = E.cg c <;> by_cases h2 : p.ctrlgroup_entry = ent.1 <;>
        by_cases h3 : p.scene = ent.2 <;> simp [h1, h2, h3, Prod.ext_iff]
    show List.Perm ((entrySetOf t (E.cg c)).flatMap
      (fun ent : Int × Int => entryParams E t (E.cg c) ent)) _
    rw [hfun, ← List.map_flatMap]
    apply List.Perm.map
    apply flatMap_filter_perm (fun p : Parameter => (p.ctrlgroup_entry, p.scene))
    · exact nodup_of_pairwise_pairLt (entrySetOf_pairwise t _)
    · intro p hp
      rw [List.mem_filter] at hp
      rw [mem_entrySetOf]
      exact ⟨p, List.reduceOption_mem_iff.1 hp.1, by simpa using hp.2, rfl⟩

/-- C8: after the first construction, `getControlGroup(id)` throws exactly when
`id` is the value of none of the seven registered control groups and otherwise
returns the group whose id is `id`; `getModSource(id)` throws exactly when `id`
is the value of none of the forty registered modulation sources and otherwise
returns the source whose id is `id`; every control-group and modulation-source
constant that the module exports is accepted by the matching lookup. -/
theorem lookups_accept_exactly_registered_ids (E : EngineDecls) (t : List (Option Parameter))
    (id : Int) :
    (((getControlGroup E (construct E t Globals.initial) id).1 = .error .invalidControlGroup ∧
        ∀ c, E.cg c ≠ id) ∨
      (∃ grp, (getControlGroup E (construct E t Globals.initial) id).1 = .ok grp ∧
        grp.id = id ∧ ∃ c, E.cg c = id)) ∧
    (((getModSource E (construct E t Globals.initial) id).1 = .error .invalidModSource ∧
        ∀ m, E.ms m ≠ id) ∨
      (∃ src, (getModSource E (construct E t Globals.initial) id).1 = .ok src ∧
        src.ms = id ∧ ∃ m, E.ms m = id)) ∧
    (∀ c ∈ cgConstants, ∃ grp,
      (getControlGroup E (construct E t Globals.initial) (E.cg c)).1 = .ok grp ∧
        grp.id = E.cg c) ∧
    (∀ m ∈ msConstants, ∃ src,
      (getModSource E (construct E t Globals.initial) (E.ms m)).1 = .ok src ∧
        src.ms = E.ms m) := by
  refine ⟨?_, ?_, ?_, ?_⟩
  · by_cases h : ∃ c, E.cg c = id
    · right
      obtain ⟨c1, _, hf⟩ := find_cgMap_some E t id h
      exact ⟨_, by rw [getControlGroup_of_find E _ _ _ hf], rfl, h⟩
    · left
      have h2 : ∀ c, E.cg c ≠ id := fun c hc => h ⟨c, hc⟩
      exact ⟨by rw [getControlGroup_of_find_none E _ _ (find_cgMap_none E t id h2)], h2⟩
  · by_cases h : ∃ m, E.ms m = id
    · right
      have hf := find_msMap_some E t id h
      exact ⟨_, by rw [getModSource_of_find E _ _ _ hf], rfl, h⟩
    · left
      have h2 : ∀ m, E.ms m ≠ id := fun m hm => h ⟨m, hm⟩
      exact ⟨by rw [getModSource_of_find_none E _ _ (find_msMap_none E t id h2)], h2⟩
  · intro c _
    obtain ⟨c1, _, hf⟩ := find_cgMap_some E t (E.cg c) ⟨c, rfl⟩
    exact ⟨_, by rw [getControlGroup_of_find E _ _ _ hf], rfl⟩
  · intro m _
    have hf := find_msMap_some E t (E.ms m) ⟨m, rfl⟩
    exact ⟨_, by rw [getModSource_of_find E _ _ _ hf], rfl⟩

/-! ### The output view -/

theorem getOutput_elem {σ α : Type} (S : Synth σ α) (blockSize : Nat) (s : σ) (c j : Nat) :
    (getOutput S blockSize s).elem c j = outputFlat (S.output s) blockSize (2 * c + j) := by
  unfold getOutput
  simp only
  congr 1
  omega

/-- C9 (code defect): with a block size of 64 the view that `getOutput` returns
has shape 2 x 64, but its row 1 starts two samples into channel 0: element
`[1][0]` is `output[0][2]`, not `output[1][0]`, and the last element of row 1
is `output[1][1]`. -/
theorem getOutput_row_one_overlaps_channel_zero :
    (getOutput counterSynth 64 1).shape = [2, 64] ∧
    (getOutput counterSynth 64 1).strides = [8, 4] ∧
    (getOutput counterSynth 64 1).elem 1 0 = counterSynth.output 1 0 2 ∧
    (getOutput counterSynth 64 1).elem 1 0 ≠ counterSynth.output 1 1 0 ∧
    (getOutput counterSynth 64 1).elem 1 63 = counterSynth.output 1 1 1 ∧
    (getOutput counterSynth 64 1).elem 1 63 ≠ counterSynth.output 1 1 63 := by
  refine ⟨rfl, rfl, rfl, by decide, rfl, by decide⟩

/-! ### Parameter values -/

theorem find_nil {V : Type} (k : Int) : EnumMap.find ([] : EnumMap V) k = none := rfl

theorem cgMap_nonempty_after_construct (E : EngineDecls) (t : List (Option Parameter)) :
    (construct E t Globals.initial).spysetup_cgMap.isEmpty = false := by
  obtain ⟨c, _, hf⟩ := find_cgMap_some E t (E.cg .cg_GLOBAL) ⟨.cg_GLOBAL, rfl⟩
  cases hm : (construct E t Globals.initial).spysetup_cgMap with
  | nil => rw [hm, find_nil] at hf; cases hf
  | cons kv m => rfl

theorem construct_of_nonempty (E : EngineDecls) (t : List (Option Parameter)) (g : Globals)
    (h : g.spysetup_cgMap.isEmpty = false) : construct E t g = g := by
  unfold construct
  rw [h]
  rfl

theorem getControlGroup_globals (E : EngineDecls) (g : Globals) (k : Int) :
    (getControlGroup E g k).2 = g := by
  cases h : EnumMap.find g.spysetup_cgMap k with
  | none => rw [getControlGroup_of_find_none E g k h]
  | some v => rw [getControlGroup_of_find E g k v h]

theorem getModSource_globals (E : EngineDecls) (g : Globals) (k : Int) :
    (getModSource E g k).2 = g := by
  cases h : EnumMap.find g.spysetup_msMap k with
  | none => rw [getModSource_of_find_none E g k h]
  | some v => rw [getModSource_of_find E g k v h]

theorem foldl_construct_of_nonempty (E : EngineDecls) (g : Globals)
    (h : g.spysetup_cgMap.isEmpty = false) (ts : List (List (Option Parameter))) :
    ts.foldl (fun g1 t => construct E t g1) g = g := by
  induction ts with
  | nil => rfl
  | cons t ts ih => rw [List.foldl_cons, construct_of_nonempty E t g h, ih]

/-- C11: after the first construction over a table `t1`, constructing again
over any table `t2`, or over any sequence of tables, leaves both process-wide
maps as they are; every `getControlGroup` and `getModSource` call, whether it
returns or throws, leaves them as they are; and a lookup repeated after
another lookup and another construction gives the same result. -/
theorem catalogs_fixed_after_first_construction (E : EngineDecls)
    (t1 t2 : List (Option Parameter)) (ts : List (List (Option Parameter))) (id : Int) :
    construct E t2 (construct E t1 Globals.initial) = construct E t1 Globals.initial ∧
    ts.foldl (fun g t => construct E t g) (construct E t1 Globals.initial) =
      construct E t1 Globals.initial ∧
    (getControlGroup E (construct E t1 Globals.initial) id).2 = construct E t1 Globals.initial ∧
    (getModSource E (construct E t1 Globals.initial) id).2 = construct E t1 Globals.initial ∧
    (getControlGroup E
        (construct E t2 (getControlGroup E (construct E t1 Globals.initial) id).2) id).1 =
      (getControlGroup E (construct E t1 Globals.initial) id).1 ∧
    (getModSource E
        (construct E t2 (getModSource E (construct E t1 Globals.initial) id).2) id).1 =
      (getModSource E (construct E t1 Globals.initial) id).1 := by
  have hne := cgMap_nonempty_after_construct E t1
  have hc := construct_of_nonempty E t2 _ hne
  refine ⟨hc, foldl_construct_of_nonempty E _ hne ts, getControlGroup_globals E _ id,
    getModSource_globals E _ id, ?_, ?_⟩
  · rw [getControlGroup_globals, hc]
  · rw [getModSource_globals, hc]

/-! ### Accessors on an empty slot -/

theorem paramAt_of_empty_slot (t : List (Option Parameter)) (i : Int) (h0 : 0 ≤ i)
    (h : t[i.toNat]? = some none) : paramAt t i = none := by
  unfold paramAt
  rw [if_neg (by omega), List.getD_eq_getElem?_getD, h]
  rfl

/-- C12: when the slot of the parameter table that a handle names is empty,
`getParamMin`, `getParamMax`, `getParamDef` and `getParamVal` return 0,
`getParamValType` returns the text `<error>`, and `setParamVal` with any input
leaves the parameter table as it is. -/
theorem accessors_on_empty_slot (t : List (Option Parameter)) (id : SurgePyNamedParam)
    (f : FloatVal) (h0 : 0 ≤ id.id.synthid) (h : t[id.id.synthid.toNat]? = some none) :
    getParamMin t id = .finite 0 ∧ getParamMax t id = .finite 0 ∧
    getParamDef t id = .finite 0 ∧ getParamVal t id = .finite 0 ∧
    getParamValType t id = "<error>" ∧ setParamVal t id f = t := by
  have hp := paramAt_of_empty_slot t _ h0 h
  unfold getParamMin getParamMax getParamDef getParamVal getParamValType setParamVal
  rw [hp]
  exact ⟨rfl, rfl, rfl, rfl, rfl, rfl⟩

/-- Witness for C12: slot 3 of the sample table is empty; the four numeric
accessors return 0 there and setting the value 7 changes nothing. -/
theorem accessors_on_empty_slot_witness :
    (0 ≤ (sampleId 3).id.synthid ∧ typedTable[(sampleId 3).id.synthid.toNat]? = some none) ∧
    (getParamMin typedTable (sampleId 3) = .finite 0 ∧
      getParamMax typedTable (sampleId 3) = .finite 0 ∧
      getParamDef typedTable (sampleId 3) = .finite 0 ∧
      getParamVal typedTable (sampleId 3) = .finite 0 ∧
      getParamValType typedTable (sampleId 3) = "<error>" ∧
      setParamVal typedTable (sampleId 3) (.finite 7) = typedTable) :=
  ⟨⟨by decide, rfl⟩,
    accessors_on_empty_slot typedTable (sampleId 3) (.finite 7) (by decide) rfl⟩

/-! ### Chunked rendering -/

/-- On a well-shaped buffer whose width is below 2^31, rendering `a` blocks from
block `s` and then `b` blocks from block `s + a` leaves the state that
rendering `a + b` blocks from block `s` leaves. -/
theorem processMultiBlock_chunks_compose_small {σ α : Type} (S : Synth σ α) (B d1 : Nat)
    (s a b : Int) (st : RenderState σ α) (hB : 0 < B) (hd : d1 < 2147483648)
    (hdiv : d1 % B = 0) (hs : 0 ≤ s) (ha : 1 ≤ a) (hb : 1 ≤ b)
    (hsum : s + a + b ≤ ((d1 / B : Nat) : Int)) :
    (processMultiBlock S B ⟨4, [2, d1]⟩ s a st).1 = .ok () ∧
    processMultiBlock S B ⟨4, [2, d1]⟩ (s + a) b (processMultiBlock S B ⟨4, [2, d1]⟩ s a st).2 =
      processMultiBlock S B ⟨4, [2, d1]⟩ s (a + b) st := by
  have hMle : ((d1 / B : Nat) : Int) ≤ d1 := by exact_mod_cast Nat.div_le_self d1 B
  have hdI : (d1 : Int) < 2147483648 := by exact_mod_cast hd
  have i1 : IsInt32 s := ⟨by omega, by omega⟩
  have i2 : IsInt32 a := ⟨by omega, by omega⟩
  have i3 : IsInt32 b := ⟨by omega, by omega⟩
  have i4 : IsInt32 (s + a) := ⟨by omega, by omega⟩
  have i5 : IsInt32 (a + b) := ⟨by omega, by omega⟩
  have e1 := processMultiBlock_of_small_buffer S B d1 s a st hB hd hdiv i1 i2
  have e3 := processMultiBlock_of_small_buffer S B d1 s (a + b) st hB hd hdiv i1 i5
  have c1 : ¬ (s < 0 ∨ ((d1 / B : Nat) : Int) ≤ s) := by omega
  have ca : (if a > 0 then a else ((d1 / B : Nat) : Int) - s) = a := if_pos (by omega)
  have cab : (if a + b > 0 then a + b else ((d1 / B : Nat) : Int) - s) = a + b :=
    if_pos (by omega)
  rw [if_neg c1, ca, if_neg (by omega)] at e1
  rw [if_neg c1, cab, if_neg (by omega)] at e3
  have e2 := processMultiBlock_of_small_buffer S B d1 (s + a) b
    (renderLoop S B a.toNat (s * B) ((d1 : Int) + s * B) st) hB hd hdiv i4 i3
  have c2 : ¬ (s + a < 0 ∨ ((d1 / B : Nat) : Int) ≤ s + a) := by omega
  have cb : (if b > 0 then b else ((d1 / B : Nat) : Int) - (s + a)) = b := if_pos (by omega)
  rw [if_neg c2, cb, if_neg (by omega)] at e2
  rw [e1, e3]
  refine ⟨rfl, ?_⟩
  simp only
  rw [e2]
  have hab : (a + b).toNat = a.toNat + b.toNat := by omega
  have hat : ((a.toNat : Nat) : Int) = a := Int.toNat_of_nonneg (by omega)
  rw [hab, renderLoop_add, hat]
  have p1 : (s + a) * (B : Int) = s * B + a * B := by ring
  rw [p1, add_assoc]

/-- Whenever the number of blocks of the buffer is a value of `int`, the call
with the default arguments is the call `processMultiBlock(buf, 0, maxBlocks)`. -/
theorem processMultiBlock_defaults_eq {σ α : Type} (S : Synth σ α) (B : Nat)
    (buf : BufferInfo) (st : RenderState σ α)
    (hM : buf.shape.getD 1 0 / B < 2147483648) :
    processMultiBlock S B buf 0 (-1) st =
      processMultiBlock S B buf 0 ((buf.shape.getD 1 0 / B : Nat) : Int) st := by
  unfold processMultiBlock
  generalize buf.shape.getD 1 0 / B = M at hM
  have ht0 : toSizeT 0 = 0 := rfl
  by_cases hz : M = 0
  · subst hz
    simp [ht0]
  · have hpos : ((M : Nat) : Int) > 0 := by omega
    have hw : wrapInt32 (toSizeT ((M : Int) - toSizeT 0)) = (M : Int) := by
      unfold wrapInt32 toSizeT
      omega
    have hneg : ¬ ((-1 : Int) > 0) := by omega
    simp only [if_neg hneg, if_pos hpos, hw]

/-- C13 (code defect): with a block size of 64 and a buffer of shape (2, 2^32),
that is 2^26 blocks, the calls `(startBlock, nBlocks) = (33554431, 1)` and then
`(33554432, 1)` are both accepted, as is the single call `(33554431, 2)`, and
both ways render twice; but offset 2^31 ends up holding 2100, the right-channel
sample of the second render, after the two calls, and 2000, its left-channel
sample, after the single call. -/
theorem processMultiBlock_chunks_differ :
    (0 : Int) ≤ 33554431 ∧ (33554431 : Int) + 1 + 1 ≤ 4294967296 / 64 ∧
    (processMultiBlock counterSynth 64 ⟨4, [2, 4294967296]⟩ 33554431 1 freshState).1 = .ok () ∧
    (processMultiBlock counterSynth 64 ⟨4, [2, 4294967296]⟩ 33554432 1
      (processMultiBlock counterSynth 64 ⟨4, [2, 4294967296]⟩ 33554431 1 freshState).2).1
        = .ok () ∧
    (processMultiBlock counterSynth 64 ⟨4, [2, 4294967296]⟩ 33554431 2 freshState).1 = .ok () ∧
    (processMultiBlock counterSynth 64 ⟨4, [2, 4294967296]⟩ 33554432 1
      (processMultiBlock counterSynth 64 ⟨4, [2, 4294967296]⟩ 33554431 1 freshState).2).2.synth
        = 2 ∧
    (processMultiBlock counterSynth 64 ⟨4, [2, 4294967296]⟩ 33554431 2 freshState).2.synth
        = 2 ∧
    (processMultiBlock counterSynth 64 ⟨4, [2, 4294967296]⟩ 33554432 1
      (processMultiBlock counterSynth 64 ⟨4, [2, 4294967296]⟩ 33554431 1 freshState).2).2.mem
        2147483648 = 2100 ∧
    (processMultiBlock counterSynth 64 ⟨4, [2, 4294967296]⟩ 33554431 2 freshState).2.mem
        2147483648 = 2000 :=
  ⟨by decide, by decide, rfl, rfl, rfl, rfl, rfl, rfl, rfl⟩

end SurgePy
